import Mathlib

/-!
# WayColor — verification of the color model and interaction engine

Shallow embedding of `src/color.rs` and the color-interaction parts of
`src/app.rs` of the WayColor repository.

Modelling conventions:
* Rust `u16` values are modelled as `ℕ` (all operations in scope stay far
  below `2^16`, except where the saturating `f32 as u16` cast matters,
  which is modelled explicitly by `Frac.toU16`).
* Rust `f32` arithmetic is modelled as exact rational arithmetic.  Float
  literals are read as the decimals they denote.  Every claim that is
  settled on a concrete input was cross-checked by hand against genuine
  `f32` rounding; the guards in the source (`delta <= 0.0001`,
  `cmax != 0.0`) keep all divisions in `rgb_to_hsv` away from zero, so no
  NaN/infinity arises there.  The one function that does divide by zero,
  `rgb_to_cymk`, is modelled with an explicit NaN/infinity-aware wrapper.
* Because `ℚ`'s arithmetic is `@[irreducible]` in this toolchain, rational
  values are carried by the executable fraction type `Frac` below (an
  integer numerator over a positive natural denominator, not necessarily
  reduced).  `Frac.toRat` interprets a `Frac` as the rational it denotes,
  and the `toRat_*` lemmas prove that every `Frac` operation implements
  the corresponding exact rational operation, so theorems can be read and
  proved over `ℚ` while concrete instances still evaluate by `decide`.
* `x as u16` on a float truncates toward zero, saturates at `0` and
  `65535`, and maps NaN to `0`; for finite values this is exactly
  `min 65535 ⌊x⌋₊` (`Frac.toU16`).
* Rust `%` on floats is remainder after truncated division
  (sign of the dividend); modelled by `rustRem`.
-/

/-- An exact rational value: integer numerator over a positive natural
denominator, not necessarily in lowest terms.  Stands in for `f32` values
of the source (which are modelled by the exact rationals they hold). -/
structure Frac where
  num : ℤ
  den : ℕ
  dpos : 0 < den

namespace Frac

/-- The rational number denoted by a `Frac`. -/
def toRat (a : Frac) : ℚ :=
  (a.num : ℚ) / (a.den : ℚ)

/-- Embed a natural number. -/
def ofNat (n : ℕ) : Frac :=
  ⟨(n : ℤ), 1, Nat.one_pos⟩

/-- Embed an integer. -/
def ofInt (n : ℤ) : Frac :=
  ⟨n, 1, Nat.one_pos⟩

instance (n : ℕ) : OfNat Frac n :=
  ⟨ofNat n⟩

instance : NatCast Frac :=
  ⟨ofNat⟩

instance : IntCast Frac :=
  ⟨ofInt⟩

/-- Addition of exact fractions. -/
def add (a b : Frac) : Frac :=
  ⟨a.num * (b.den : ℤ) + b.num * (a.den : ℤ), a.den * b.den,
   Nat.mul_pos a.dpos b.dpos⟩

/-- Negation. -/
def neg (a : Frac) : Frac :=
  ⟨-a.num, a.den, a.dpos⟩

/-- Subtraction. -/
def sub (a b : Frac) : Frac :=
  add a (neg b)

/-- Multiplication. -/
def mul (a b : Frac) : Frac :=
  ⟨a.num * b.num, a.den * b.den, Nat.mul_pos a.dpos b.dpos⟩

/-- Division.  Division by an exact zero yields `0`; the embedded code
only divides by zero in `rgb_to_cymk`, which wraps this in an explicit
NaN-aware layer, and in all other call sites the divisor is guarded
away from zero. -/
def div (a b : Frac) : Frac :=
  if h : b.num = 0 then ⟨0, 1, Nat.one_pos⟩
  else if 0 ≤ b.num then
    ⟨a.num * (b.den : ℤ), a.den * b.num.natAbs,
     Nat.mul_pos a.dpos (Int.natAbs_pos.mpr h)⟩
  else
    ⟨-(a.num * (b.den : ℤ)), a.den * b.num.natAbs,
     Nat.mul_pos a.dpos (Int.natAbs_pos.mpr h)⟩

/-- Absolute value. -/
def fabs (a : Frac) : Frac :=
  ⟨(a.num.natAbs : ℤ), a.den, a.dpos⟩

instance : Add Frac := ⟨add⟩

instance : Neg Frac := ⟨neg⟩

instance : Sub Frac := ⟨sub⟩

instance : Mul Frac := ⟨mul⟩

instance : Div Frac := ⟨div⟩

/-- Comparison `a ≤ b`, by cross-multiplication (denominators are
positive).  This is `f32` comparison on the finite values in scope. -/
def le (a b : Frac) : Bool :=
  decide (a.num * (b.den : ℤ) ≤ b.num * (a.den : ℤ))

/-- Strict comparison `a < b`. -/
def lt (a b : Frac) : Bool :=
  decide (a.num * (b.den : ℤ) < b.num * (a.den : ℤ))

/-- Equality test (`f32 ==` on the finite values in scope). -/
def beq (a b : Frac) : Bool :=
  decide (a.num * (b.den : ℤ) = b.num * (a.den : ℤ))

/-- `f32::max` (on finite values). -/
def fmax (a b : Frac) : Frac :=
  if le a b then b else a

/-- `f32::min` (on finite values). -/
def fmin (a b : Frac) : Frac :=
  if le a b then a else b

/-- Floor of the denoted rational (an integer). -/
def floor (a : Frac) : ℤ :=
  a.num / (a.den : ℤ)

/-- Truncation toward zero of the denoted rational (the rounding used by
Rust float-to-int casts and float `%`). -/
def trunc (a : Frac) : ℤ :=
  a.num.tdiv (a.den : ℤ)

/-- Rust `x as u16` on a finite `f32` value: truncate toward zero,
saturating at `0` below and `65535` above. -/
def toU16 (a : Frac) : ℕ :=
  min 65535 a.floor.toNat

/-- Rust `a % b` on floats: `a - b * trunc(a / b)`. -/
def rustRem (a b : Frac) : Frac :=
  a - b * ofInt (trunc (a / b))

/-! ### Interpretation lemmas: `Frac` implements exact rational arithmetic -/

theorem den_ne (a : Frac) : ((a.den : ℚ)) ≠ 0 := by
  exact_mod_cast Nat.pos_iff_ne_zero.mp a.dpos

@[simp] theorem toRat_ofNat (n : ℕ) : (ofNat n).toRat = (n : ℚ) := by
  simp [ofNat, toRat]

@[simp] theorem toRat_natCast (n : ℕ) : ((n : Frac)).toRat = (n : ℚ) :=
  toRat_ofNat n

@[simp] theorem toRat_ofInt (n : ℤ) : (ofInt n).toRat = (n : ℚ) := by
  simp [ofInt, toRat]

@[simp] theorem toRat_intCast (n : ℤ) : ((n : Frac)).toRat = (n : ℚ) :=
  toRat_ofInt n

@[simp] theorem toRat_lit (n : ℕ) :
    (no_index (OfNat.ofNat n) : Frac).toRat = (n : ℚ) :=
  toRat_ofNat n

@[simp] theorem toRat_add (a b : Frac) : (a + b).toRat = a.toRat + b.toRat := by
  show (add a b).toRat = _
  have ha := a.den_ne
  have hb := b.den_ne
  simp only [add, toRat]
  push_cast
  field_simp

@[simp] theorem toRat_neg (a : Frac) : (-a).toRat = -a.toRat := by
  show (neg a).toRat = _
  simp [neg, toRat, neg_div]

@[simp] theorem toRat_sub (a b : Frac) : (a - b).toRat = a.toRat - b.toRat := by
  have h : a - b = a + (-b) := rfl
  rw [h, toRat_add, toRat_neg, sub_eq_add_neg]

@[simp] theorem toRat_mul (a b : Frac) : (a * b).toRat = a.toRat * b.toRat := by
  show (mul a b).toRat = _
  simp only [mul, toRat]
  push_cast
  rw [div_mul_div_comm]

@[simp] theorem toRat_fabs (a : Frac) : a.fabs.toRat = |a.toRat| := by
  have ha := a.den_ne
  have hd : (0:ℚ) ≤ (a.den : ℚ) := by positivity
  simp only [fabs, toRat]
  rw [abs_div, abs_of_nonneg hd]
  congr 1
  rw [Int.cast_natCast, Int.cast_natAbs, Int.cast_abs]

theorem toRat_eq_zero_iff (a : Frac) : a.toRat = 0 ↔ a.num = 0 := by
  have ha := a.den_ne
  simp [toRat, div_eq_zero_iff, ha]

@[simp] theorem toRat_div (a b : Frac) : (a / b).toRat = a.toRat / b.toRat := by
  show (div a b).toRat = _
  have ha := a.den_ne
  have hb := b.den_ne
  by_cases h : b.num = 0
  · have : b.toRat = 0 := (toRat_eq_zero_iff b).mpr h
    simp [div, h, toRat, this]
  · have hb0 : ((b.num : ℚ)) ≠ 0 := Int.cast_ne_zero.mpr h
    have habs : ((b.num.natAbs : ℚ)) = |(b.num : ℚ)| := by
      rw [Int.cast_natAbs, Int.cast_abs]
    rcases le_or_lt 0 b.num with hpos | hneg
    · have habs' : ((b.num.natAbs : ℚ)) = (b.num : ℚ) := by
        rw [habs, abs_of_nonneg (by exact_mod_cast hpos)]
      simp only [div, dif_neg h, if_pos hpos, toRat]
      push_cast
      rw [habs']
      field_simp
    · have hnot : ¬ (0 ≤ b.num) := not_le.mpr hneg
      have habs' : ((b.num.natAbs : ℚ)) = -(b.num : ℚ) := by
        rw [habs, abs_of_neg (by exact_mod_cast hneg)]
      simp only [div, dif_neg h, if_neg hnot, toRat]
      push_cast
      rw [habs']
      field_simp

theorem le_iff (a b : Frac) : a.le b = true ↔ a.toRat ≤ b.toRat := by
  have ha : (0:ℚ) < (a.den : ℚ) := by exact_mod_cast a.dpos
  have hb : (0:ℚ) < (b.den : ℚ) := by exact_mod_cast b.dpos
  rw [le, decide_eq_true_iff, toRat, toRat, div_le_div_iff ha hb]
  constructor
  · intro h; exact_mod_cast h
  · intro h; exact_mod_cast h

theorem lt_iff (a b : Frac) : a.lt b = true ↔ a.toRat < b.toRat := by
  have ha : (0:ℚ) < (a.den : ℚ) := by exact_mod_cast a.dpos
  have hb : (0:ℚ) < (b.den : ℚ) := by exact_mod_cast b.dpos
  rw [lt, decide_eq_true_iff, toRat, toRat, div_lt_div_iff ha hb]
  constructor
  · intro h; exact_mod_cast h
  · intro h; exact_mod_cast h

theorem beq_iff (a b : Frac) : a.beq b = true ↔ a.toRat = b.toRat := by
  have ha : ((a.den:ℚ)) ≠ 0 := a.den_ne
  have hb : ((b.den:ℚ)) ≠ 0 := b.den_ne
  rw [beq, decide_eq_true_iff, toRat, toRat, div_eq_div_iff ha hb]
  constructor
  · intro h; exact_mod_cast h
  · intro h; exact_mod_cast h

@[simp] theorem toRat_fmax (a b : Frac) : (a.fmax b).toRat = max a.toRat b.toRat := by
  rw [fmax]
  by_cases h : a.le b = true
  · rw [if_pos h, max_eq_right ((le_iff a b).mp h)]
  · have := (not_iff_not.mpr (le_iff a b)).mp (by simpa using h)
    rw [if_neg (by simpa using h), max_eq_left (le_of_not_le this)]

@[simp] theorem toRat_fmin (a b : Frac) : (a.fmin b).toRat = min a.toRat b.toRat := by
  rw [fmin]
  by_cases h : a.le b = true
  · rw [if_pos h, min_eq_left ((le_iff a b).mp h)]
  · have := (not_iff_not.mpr (le_iff a b)).mp (by simpa using h)
    rw [if_neg (by simpa using h), min_eq_right (le_of_not_le this)]

theorem floor_toRat (a : Frac) : a.floor = ⌊a.toRat⌋ := by
  rw [floor, toRat, Rat.floor_intCast_div_natCast]

theorem toU16_eq (a : Frac) : a.toU16 = min 65535 ⌊a.toRat⌋₊ := by
  rw [toU16, floor_toRat, Int.floor_toNat]

theorem trunc_eq_floor_of_nonneg (a : Frac) (h : 0 ≤ a.toRat) :
    a.trunc = ⌊a.toRat⌋ := by
  have hnum : 0 ≤ a.num := by
    by_contra hc
    push_neg at hc
    have hd : (0:ℚ) < (a.den : ℚ) := by exact_mod_cast a.dpos
    have : a.toRat < 0 := by
      rw [toRat]
      apply div_neg_of_neg_of_pos _ hd
      exact_mod_cast hc
    linarith
  rw [trunc, Int.tdiv_eq_ediv hnum (by positivity), ← floor_toRat, floor]

end Frac

/-! ## `src/color.rs` -/

/-- `rgb_to_hsv` from `src/color.rs` (lines 118–142): the standard
max/min/delta formulas, with hue forced to `0` when `delta ≤ 0.0001`,
computed in `f32` (modelled by `Frac`) and cast to `u16` at the end.
The source initializes `h = 0.0` and leaves it untouched when no branch
fires, which is mirrored by the final `else 0`. -/
def rgb_to_hsv (r g b : ℕ) : ℕ × ℕ × ℕ :=
  let r01 : Frac := (r : Frac) / 255
  let g01 : Frac := (g : Frac) / 255
  let b01 : Frac := (b : Frac) / 255
  let cmax := r01.fmax (g01.fmax b01)
  let cmin := r01.fmin (g01.fmin b01)
  let delta := cmax - cmin
  let h : Frac :=
    if delta.le (1 / 10000) then 0
    else if cmax.beq r01 then Frac.rustRem (60 * ((g01 - b01) / delta) + 360) 360
    else if cmax.beq g01 then Frac.rustRem (60 * ((b01 - r01) / delta) + 120) 360
    else if cmax.beq b01 then Frac.rustRem (60 * ((r01 - g01) / delta) + 240) 360
    else 0
  let s : Frac := if ¬ (cmax.beq 0) then delta / cmax * 100 else 0
  let v : Frac := cmax * 100
  (h.toU16, s.toU16, v.toU16)

/-- `hsv_to_rbg` from `src/color.rs` (lines 181–204): the standard
chroma/intermediate/match construction, sector-selected by integer
comparison of `h` against 60° bands, cast to `u16` at the end. -/
def hsv_to_rbg (h s v : ℕ) : ℕ × ℕ × ℕ :=
  let s01 : Frac := (s : Frac) / 100
  let v01 : Frac := (v : Frac) / 100
  let c : Frac := s01 * v01
  let x : Frac := c * (1 - (Frac.rustRem ((h : Frac) / 60) 2 - 1).fabs)
  let m : Frac := v01 - c
  let rgb01 : Frac × Frac × Frac :=
    if h < 60 then (c, x, 0)
    else if h < 120 then (x, c, 0)
    else if h < 180 then (0, c, x)
    else if h < 240 then (0, x, c)
    else if h < 300 then (x, 0, c)
    else (c, 0, x)
  (((rgb01.1 + m) * 255).toU16,
   ((rgb01.2.1 + m) * 255).toU16,
   ((rgb01.2.2 + m) * 255).toU16)

/-- One uppercase hexadecimal digit (`0`–`9`, `A`–`F`). -/
def hexDigitChar (n : ℕ) : Char :=
  if n < 10 then Char.ofNat (48 + n) else Char.ofNat (55 + n)

/-- Fuel-driven core of `toHexUpper`. -/
def toHexUpperAux : ℕ → ℕ → List Char
  | 0, _ => []
  | fuel + 1, n =>
    if n < 16 then [hexDigitChar n]
    else toHexUpperAux fuel (n / 16) ++ [hexDigitChar (n % 16)]

/-- Rust's `{:X?}` / `{:X}` formatting of an unsigned integer:
minimal-width uppercase hexadecimal, NO zero padding
(`0 ↦ "0"`, `30 ↦ "1E"`). -/
def toHexUpper (n : ℕ) : List Char :=
  toHexUpperAux (n + 1) n

/-- `get_hex` from `src/color.rs` (lines 206–208):
`format!("#{:X?}{:X?}{:X?}", r, g, b)`.  Note `{:X?}` does not zero-pad. -/
def get_hex (r g b : ℕ) : String :=
  ⟨'#' :: (toHexUpper r ++ toHexUpper g ++ toHexUpper b)⟩

/-- The `Color` struct from `src/color.rs`: `r,g,b,h,s,v : u16` plus the
cached hex string. -/
structure Color where
  r : ℕ
  g : ℕ
  b : ℕ
  h : ℕ
  s : ℕ
  v : ℕ
  hex : String
deriving Repr, DecidableEq

/-- Rust `Ord::clamp` on `u16`, modelled on `ℕ`. -/
def clampN (x lo hi : ℕ) : ℕ :=
  min hi (max lo x)

/-- `Color::from_rgb` (src/color.rs lines 18–33): clamp each channel to
`[0,255]`, derive HSV and the hex string. -/
def Color.from_rgb (r g b : ℕ) : Color :=
  let r := clampN r 0 255
  let g := clampN g 0 255
  let b := clampN b 0 255
  let hsv := rgb_to_hsv r g b
  { r := r, g := g, b := b
    h := hsv.1, s := hsv.2.1, v := hsv.2.2
    hex := get_hex r g b }

/-- `Color::from_hsv` (src/color.rs lines 35–50): clamp `h` to `[0,360]`
(note: 360 inclusive) and `s,v` to `[0,100]`, derive RGB and hex. -/
def Color.from_hsv (h s v : ℕ) : Color :=
  let h := clampN h 0 360
  let s := clampN s 0 100
  let v := clampN v 0 100
  let rgb := hsv_to_rbg h s v
  { r := rgb.1, g := rgb.2.1, b := rgb.2.2
    h := h, s := s, v := v
    hex := get_hex rgb.1 rgb.2.1 rgb.2.2 }

-- Scratch sanity checks on concrete inputs (spec §8 test vectors).
example : rgb_to_hsv 255 0 0 = (0, 100, 100) := by decide
example : rgb_to_hsv 0 255 0 = (120, 100, 100) := by decide
example : rgb_to_hsv 0 0 255 = (240, 100, 100) := by decide
example : hsv_to_rbg 0 100 100 = (255, 0, 0) := by decide
example : get_hex 30 144 255 = "#1E90FF" := by decide
example : get_hex 0 0 0 = "#000" := by decide
example : (Color.from_rgb 22 22 33).hex = "#161621" := by decide
example : hsv_to_rbg 200 1 50 = (126, 127, 127) := by decide
example : rgb_to_hsv 126 127 127 = (180, 0, 49) := by decide

/-- Rust `char::to_digit(16)`: value of a hexadecimal digit character
(`0-9`, `a-f`, `A-F`), `none` otherwise. -/
def hexDigitVal? (c : Char) : Option ℕ :=
  if 48 ≤ c.toNat ∧ c.toNat ≤ 57 then some (c.toNat - 48)
  else if 97 ≤ c.toNat ∧ c.toNat ≤ 102 then some (c.toNat - 87)
  else if 65 ≤ c.toNat ∧ c.toNat ≤ 70 then some (c.toNat - 55)
  else none

/-- Digit-accumulation loop of `u32::from_str_radix(_, 16)`. -/
def parseHexNat : ℕ → List Char → Option ℕ
  | acc, [] => some acc
  | acc, c :: rest =>
    match hexDigitVal? c with
    | none => none
    | some d => parseHexNat (acc * 16 + d) rest

/-- Rust `u32::from_str_radix(s, 16)`: an optional single leading `'+'`,
then a nonempty run of hex digits; errors on any other character, on an
empty digit run, and on overflow past `u32::MAX` (the stepwise
checked-arithmetic overflow test of the Rust implementation is equivalent
to this final-value test, because accumulation is monotone). -/
def from_str_radix_u32_hex (l : List Char) : Option ℕ :=
  let digits := if l.head? = some '+' then l.tail else l
  if digits.isEmpty then none
  else
    match parseHexNat 0 digits with
    | none => none
    | some v => if v < 4294967296 then some v else none

/-- Byte length of a string, as `String::len` in Rust (UTF-8 bytes,
not characters). -/
def utf8Len (l : List Char) : ℕ :=
  (l.map Char.utf8Size).sum

/-- Rust `str::strip_prefix('#')`: `some` of the remainder when the
string starts with `'#'`, `none` otherwise. -/
def stripHash (l : List Char) : Option (List Char) :=
  match l with
  | c :: rest => if c = '#' then some rest else none
  | [] => none

/-- `Color::from_hex` (src/color.rs lines 52–73): require byte length 7,
strip the leading `'#'`, parse the rest as a hexadecimal `u32`, and take
`r,g,b` from the three low bytes of its big-endian representation
(`let [_, r, g, b] = v.to_be_bytes()`); the input string itself is stored
in the `hex` field. -/
def Color.from_hex (s : String) : Option Color :=
  if utf8Len s.data ≠ 7 then none
  else
    match stripHash s.data with
    | none => none
    | some rest =>
      match from_str_radix_u32_hex rest with
      | none => none
      | some v =>
        let r := v / 65536 % 256
        let g := v / 256 % 256
        let b := v % 256
        let hsv := rgb_to_hsv r g b
        some { r := r, g := g, b := b
               h := hsv.1, s := hsv.2.1, v := hsv.2.2
               hex := s }

/-- A (possibly non-finite) `f32` value: NaN, signed infinity, or a
finite value.  Only needed for `rgb_to_cymk`, whose `C/M/Y` formulas
divide by zero at pure black. -/
inductive F32x where
  | nan : F32x
  | pinf : F32x
  | ninf : F32x
  | fin : Frac → F32x

/-- `f32` division including the zero-divisor cases (`0/0 = NaN`,
`±a/0 = ±∞` for `a ≠ 0`); both operands finite here, as in the source. -/
def fdivx (a b : Frac) : F32x :=
  if b.beq 0 then
    (if a.beq 0 then F32x.nan else if a.lt 0 then F32x.ninf else F32x.pinf)
  else F32x.fin (a / b)

/-- Multiplication of a possibly non-finite value by the positive literal
`100.0` (preserves NaN and infinities). -/
def fmul100 : F32x → F32x
  | F32x.nan => F32x.nan
  | F32x.pinf => F32x.pinf
  | F32x.ninf => F32x.ninf
  | F32x.fin q => F32x.fin (q * 100)

/-- Is this value NaN? -/
def F32x.isNan : F32x → Bool
  | F32x.nan => true
  | _ => false

/-- Rust `x as u16` on a possibly non-finite `f32`: NaN and `-∞` go to
`0`, `+∞` saturates to `65535`. -/
def f32xToU16 : F32x → ℕ
  | F32x.nan => 0
  | F32x.pinf => 65535
  | F32x.ninf => 0
  | F32x.fin q => q.toU16

/-- The `k` value of `rgb_to_cymk` (src/color.rs line 174):
`1 - max(r01, g01, b01)`. -/
def cymk_k (r g b : ℕ) : Frac :=
  1 - ((r : Frac) / 255).fmax (((g : Frac) / 255).fmax ((b : Frac) / 255))

/-- The pre-cast `c` value of `rgb_to_cymk` (line 175), including the
division-by-zero outcome at `k = 1`. -/
def cymk_c_pre (r g b : ℕ) : F32x :=
  fmul100 (fdivx (1 - (r : Frac) / 255 - cymk_k r g b) (1 - cymk_k r g b))

/-- The pre-cast `m` value (line 176). -/
def cymk_m_pre (r g b : ℕ) : F32x :=
  fmul100 (fdivx (1 - (g : Frac) / 255 - cymk_k r g b) (1 - cymk_k r g b))

/-- The pre-cast `y` value (line 177). -/
def cymk_y_pre (r g b : ℕ) : F32x :=
  fmul100 (fdivx (1 - (b : Frac) / 255 - cymk_k r g b) (1 - cymk_k r g b))

/-- `rgb_to_cymk` from `src/color.rs` (lines 170–179).  Note the result
tuple order of the source: `(c, y, m, k)`. -/
def rgb_to_cymk (r g b : ℕ) : ℕ × ℕ × ℕ × ℕ :=
  (f32xToU16 (cymk_c_pre r g b),
   f32xToU16 (cymk_y_pre r g b),
   f32xToU16 (cymk_m_pre r g b),
   (cymk_k r g b * 100).toU16)

/-- `Color::value_by_name` (src/color.rs lines 93–103). -/
def Color.value_by_name (c : Color) (name : String) : ℕ :=
  match name with
  | "r" => c.r
  | "g" => c.g
  | "b" => c.b
  | "h" => c.h
  | "s" => c.s
  | "v" => c.v
  | _ => 0

-- Scratch sanity checks.
example : Color.from_hex "#1E90FF" = some (Color.from_rgb 30 144 255) := by decide
example : Color.from_hex "bad" = none := by decide
example : Color.from_hex "#12345" = none := by decide
example : (Color.from_hex "#+12345").isSome = true := by decide
example : rgb_to_cymk 0 0 0 = (0, 0, 0, 100) := by decide
example : (cymk_c_pre 0 0 0).isNan = true := by decide

/-! ## `src/app.rs` — interaction mapping -/

/-- Rust `f32::clamp(lo, hi)` (finite values). -/
def Frac.fclamp (x lo hi : Frac) : Frac :=
  if x.lt lo then lo else if hi.lt x then hi else x

/-- `GradientType` from `src/gradient.rs`: the 2-D saturation/value plane
(`Gradient`) or a one-channel slider addressed by name. -/
inductive GradientType where
  | Gradient : GradientType
  | Slider : String → GradientType

/-- `App::get_fixed_color_value` (src/app.rs lines 378–384): cast `t`
(or `t * max` when `scaled`) to `u16`, then clamp to `[0, max]`. -/
def get_fixed_color_value (t : Frac) (mx : ℕ) (scaled : Bool) : ℕ :=
  let value := if scaled then (t * (mx : Frac)).toU16 else t.toU16
  clampN value 0 mx

/-- `App::change_color_value` (src/app.rs lines 342–376): rebuild the
color with the addressed channel replaced, via the matching constructor;
unknown names fall through to `from_rgb(255, 0, 0)` as in the source. -/
def change_color_value (cur : Color) (label : String) (t : Frac) (scaled : Bool) : Color :=
  match label with
  | "r" => Color.from_rgb (get_fixed_color_value t 255 scaled) cur.g cur.b
  | "g" => Color.from_rgb cur.r (get_fixed_color_value t 255 scaled) cur.b
  | "b" => Color.from_rgb cur.r cur.g (get_fixed_color_value t 255 scaled)
  | "h" => Color.from_hsv (get_fixed_color_value t 360 scaled) cur.s cur.v
  | "s" => Color.from_hsv cur.h (get_fixed_color_value t 100 scaled) cur.v
  | "v" => Color.from_hsv cur.h cur.s (get_fixed_color_value t 100 scaled)
  | _ => Color.from_rgb 255 0 0

/-- `App::handle_gradient_click` (src/app.rs lines 288–320), drag branch,
with the pointer position given relative to the rectangle's min corner
(`x`,`y`) and the rectangle's size (`w`,`h`): clamp the pointer into the
rectangle and recompute the color.  `MainPlane` sets
`s = x/w * 100`, `v = (1 - y/h) * 100` and keeps the current hue;
a slider sets its channel from `t = x/w` (scaled). -/
def handle_gradient_click (cur : Color) (g : GradientType) (x y w h : Frac) : Color :=
  let px := x.fclamp 0 w
  let py := y.fclamp 0 h
  match g with
  | GradientType.Gradient =>
    let s := (px - 0) / w * 100
    let v := (1 - (py - 0) / h) * 100
    Color.from_hsv cur.h s.toU16 v.toU16
  | GradientType.Slider stype =>
    let t := (px - 0) / (w - 0)
    change_color_value cur stype t true

/-- `App::handle_gradient_scroll` (src/app.rs lines 322–340): ignore a
zero scroll delta or a pointer outside the surface; otherwise a slider
adjusts its channel by `±1` (sign of the delta) through the unscaled
`change_color_value` path, and the main plane does nothing. -/
def handle_gradient_scroll (cur : Color) (g : GradientType) (dy : Frac)
    (hovered : Bool) : Color :=
  if dy.beq 0 || !hovered then cur
  else
    match g with
    | GradientType.Gradient => cur
    | GradientType.Slider stype =>
      let value : ℤ := (cur.value_by_name stype : ℤ) + (if (0 : Frac).lt dy then 1 else -1)
      change_color_value cur stype (Frac.ofInt value) false

/-- The six slider labels of `App::new` (src/app.rs line 46). -/
def sliderLabels : List String :=
  ["r", "g", "b", "h", "s", "v"]

/-- The interaction-relevant part of the `App` state: the current color,
the hex text field, and the per-channel text buffers. -/
structure AppState where
  color : Color
  hexText : String
  sliderTexts : String → String

/-- `App::set_color` (src/app.rs lines 511–520): install the new color,
copy its hex string into the hex field, and rewrite every slider text
from the new color's channel values. -/
def set_color (a : AppState) (c : Color) : AppState :=
  { color := c
    hexText := c.hex
    sliderTexts := fun l =>
      if l ∈ sliderLabels then toString (c.value_by_name l) else a.sliderTexts l }

/-- `App::on_slider_text_changed` (src/app.rs lines 522–533), together
with the egui `TextEdit` write that precedes it: when `.changed()` fires,
the widget has already stored the edited text `txt` in the addressed
channel's buffer, and the handler then parses that buffer.  The
`text.parse::<f32>()` outcome is modelled as an `Option Frac` argument
(the parsed finite value, or `none` on parse failure; a non-finite parse
result such as `inf`/`NaN`, possible in Rust, is outside this model): on
success the value goes through the unscaled `change_color_value` path,
on failure the current color is re-applied, which rewrites every text
buffer and the hex field. -/
def on_slider_text_changed (a : AppState) (label txt : String)
    (parsed : Option Frac) : AppState :=
  if label ∈ sliderLabels then
    let a' : AppState :=
      { a with sliderTexts := fun l => if l = label then txt else a.sliderTexts l }
    match parsed with
    | some t => set_color a' (change_color_value a'.color label t false)
    | none => set_color a' a'.color
  else a

/-- The hex-entry path of `App::draw_footer` (src/app.rs lines 492–503),
together with the egui `TextEdit` write that precedes it: when
`.changed()` fires, the widget has already stored the edited text `s` in
`self.hex`, and the handler then parses it with `Color::from_hex`.  On
success the color is installed (which also resynchronizes the text
buffers); on failure NOTHING further happens — the invalid text stays in
the hex field. -/
def on_hex_text_changed (a : AppState) (s : String) : AppState :=
  let a' : AppState := { a with hexText := s }
  match Color.from_hex s with
  | some c => set_color a' c
  | none => a'

/-- Modelled from the spec's words (claim C7): `round(t * channelMax)`
"rounded to nearest" — stated for comparison against the source, which
truncates instead. -/
def roundNearest (a : Frac) : ℤ :=
  (a + 1 / 2).floor

-- Scratch sanity checks.
example : (handle_gradient_click (Color.from_rgb 0 0 0) (GradientType.Slider "r") 1 0 2 1).r = 127 := by decide
example : roundNearest ((1 : Frac) / 2 * 255) = 128 := by decide
example : (handle_gradient_scroll (Color.from_hsv 359 50 50) (GradientType.Slider "h") 1 true).h = 360 := by decide
example : (handle_gradient_scroll (Color.from_hsv 360 50 50) (GradientType.Slider "h") 1 true).h = 360 := by decide
example : (handle_gradient_scroll (Color.from_hsv 0 50 50) (GradientType.Slider "h") (-1) true).h = 0 := by decide

/-! ## Claims -/

/-- C1: for every integer triple `r,g,b ∈ [0,255]`, `from_rgb(r,g,b)`
stores exactly `r`, `g`, `b` back in its `r`, `g`, `b` fields. -/
theorem C1_from_rgb_roundtrip (r g b : ℕ) (hr : r ≤ 255) (hg : g ≤ 255) (hb : b ≤ 255) :
    (Color.from_rgb r g b).r = r ∧ (Color.from_rgb r g b).g = g ∧
    (Color.from_rgb r g b).b = b := by
  refine ⟨?_, ?_, ?_⟩ <;> simp [Color.from_rgb, clampN] <;> omega

/-- Witness for C1 at the concrete triple (30, 144, 255). -/
theorem C1_from_rgb_roundtrip_witness :
    (Color.from_rgb 30 144 255).r = 30 ∧ (Color.from_rgb 30 144 255).g = 144 ∧
    (Color.from_rgb 30 144 255).b = 255 :=
  C1_from_rgb_roundtrip 30 144 255 (by decide) (by decide) (by decide)

/-- C2 (code bug): the cached hex string is NOT the canonical zero-padded
six-digit encoding: `from_rgb(0,0,0)` caches `"#000"`, which differs from
the canonical `"#000000"` and which the code's own `from_hex` rejects. -/
theorem C2_hex_not_padded :
    (Color.from_rgb 0 0 0).hex = "#000" ∧ "#000" ≠ "#000000" ∧
    Color.from_hex (Color.from_rgb 0 0 0).hex = none := by decide

/-- C3 counterexample: the HSV→RGB→HSV round trip at `(h,s,v)=(200,1,50)`
returns hue `180`, off by `20 > 1`, and this is not the zero-chroma
hue-`0` policy case (the resulting hue is not `0`). -/
theorem C3_counterexample :
    hsv_to_rbg 200 1 50 = (126, 127, 127) ∧
    rgb_to_hsv 126 127 127 = (180, 0, 49) ∧
    ¬ (200 ≤ 180 + 1) ∧ (180 : ℕ) ≠ 0 := by decide

/-- C4 counterexample: `from_hex` accepts `"#+12345"`, whose content
after `'#'` is not six hex digits (`'+'` is not a hex digit), because
Rust's `u32::from_str_radix` tolerates a leading plus sign. -/
theorem C4_counterexample :
    (Color.from_hex "#+12345").isSome = true ∧ hexDigitVal? '+' = none := by decide

/-- C5 counterexample: `rgb_to_cymk` has no `k = 1` special case — at
pure black the `C/M/Y` divisors `1 - k` are exactly `0` and the divisions
are performed, producing NaN before the cast. -/
theorem C5_counterexample :
    (1 - cymk_k 0 0 0).beq 0 = true ∧ (cymk_c_pre 0 0 0).isNan = true ∧
    (cymk_m_pre 0 0 0).isNan = true ∧ (cymk_y_pre 0 0 0).isNan = true := by decide

/-- C5 amended: despite the unguarded `0/0` divisions, the saturating
`f32 as u16` cast maps the NaN results to `0`, so
`rgb_to_cymk(0,0,0) = (c=0, y=0, m=0, k=100)` and no fault propagates. -/
theorem C5_cymk_black : rgb_to_cymk 0 0 0 = (0, 0, 0, 100) := by decide

/-- C6 counterexample: `from_hsv` clamps the hue to the closed interval
`[0,360]`, so a constructor can produce `h = 360`, violating the claimed
strict bound `h < 360`. -/
theorem C6_counterexample :
    (Color.from_hsv 400 50 50).h = 360 ∧ ¬ ((Color.from_hsv 400 50 50).h < 360) := by decide

/-- C7 counterexample: a slider drag truncates `t * channelMax` rather
than rounding to nearest: on the `r` slider at `t = 1/2` (pointer at
`x = 1` in a rectangle of width `2`) the code yields `127`, while
`round(t * 255) = round(127.5) = 128`. -/
theorem C7_counterexample :
    (handle_gradient_click (Color.from_rgb 0 0 0) (GradientType.Slider "r") 1 0 2 1).r = 127 ∧
    roundNearest ((1 : Frac) / 2 * 255) = 128 ∧ (127 : ℕ) ≠ 128 := by decide

/-! ### Bounds on the embedded arithmetic -/

theorem Frac.toU16_le (a : Frac) (k : ℕ) (h : a.toRat ≤ (k : ℚ)) : a.toU16 ≤ k := by
  rw [Frac.toU16_eq]
  have h1 : ⌊a.toRat⌋₊ ≤ ⌊(k : ℚ)⌋₊ := Nat.floor_mono h
  rw [Nat.floor_natCast] at h1
  exact le_trans (min_le_right _ _) h1

theorem Frac.toU16_lt (a : Frac) (k : ℕ) (hk : 0 < k) (h : a.toRat < (k : ℚ)) :
    a.toU16 < k := by
  rw [Frac.toU16_eq]
  have h1 : ⌊a.toRat⌋₊ < k := by
    rcases le_or_lt 0 a.toRat with h0 | h0
    · exact (Nat.floor_lt h0).mpr h
    · rw [Nat.floor_of_nonpos h0.le]
      exact hk
  exact lt_of_le_of_lt (min_le_right _ _) h1

theorem Frac.rustRem_nonneg_lt (a b : Frac) (ha : 0 ≤ a.toRat) (hb : 0 < b.toRat) :
    0 ≤ (Frac.rustRem a b).toRat ∧ (Frac.rustRem a b).toRat < b.toRat := by
  have hq : 0 ≤ (a / b).toRat := by
    rw [Frac.toRat_div]
    positivity
  have hval : (Frac.rustRem a b).toRat =
      a.toRat - b.toRat * (⌊a.toRat / b.toRat⌋ : ℚ) := by
    rw [Frac.rustRem, Frac.toRat_sub, Frac.toRat_mul, Frac.toRat_ofInt,
      Frac.trunc_eq_floor_of_nonneg _ hq, Frac.toRat_div]
  have hbne : b.toRat ≠ 0 := ne_of_gt hb
  have key : a.toRat - b.toRat * (⌊a.toRat / b.toRat⌋ : ℚ) =
      b.toRat * Int.fract (a.toRat / b.toRat) := by
    rw [Int.fract]
    field_simp
  rw [hval, key]
  constructor
  · have := Int.fract_nonneg (a.toRat / b.toRat)
    positivity
  · calc b.toRat * Int.fract (a.toRat / b.toRat)
        < b.toRat * 1 := by
          exact mul_lt_mul_of_pos_left (Int.fract_lt_one _) hb
      _ = b.toRat := mul_one _

set_option maxHeartbeats 2000000 in
theorem hsv_to_rbg_le255 (h s v : ℕ) (hs : s ≤ 100) (hv : v ≤ 100) :
    (hsv_to_rbg h s v).1 ≤ 255 ∧ (hsv_to_rbg h s v).2.1 ≤ 255 ∧
    (hsv_to_rbg h s v).2.2 ≤ 255 := by
  have hs0 : (0:ℚ) ≤ (s:ℚ) := by positivity
  have hv0 : (0:ℚ) ≤ (v:ℚ) := by positivity
  have hs1 : (s:ℚ) ≤ 100 := by exact_mod_cast hs
  have hv1 : (v:ℚ) ≤ 100 := by exact_mod_cast hv
  have hrem := Frac.rustRem_nonneg_lt ((h : Frac) / 60) 2
    (by simp only [Frac.toRat_div, Frac.toRat_natCast, Frac.toRat_lit]; positivity)
    (by simp only [Frac.toRat_lit]; norm_num)
  rw [show ((2:Frac)).toRat = (2:ℚ) by simp only [Frac.toRat_lit]; norm_num] at hrem
  obtain ⟨hrem0, hrem2⟩ := hrem
  have habs0 : (0:ℚ) ≤ |(Frac.rustRem ((h : Frac) / 60) 2).toRat - 1| := abs_nonneg _
  have habs1 : |(Frac.rustRem ((h : Frac) / 60) 2).toRat - 1| ≤ 1 := by
    rw [abs_le]
    constructor <;> linarith
  refine ⟨?_, ?_, ?_⟩ <;>
    (simp only [hsv_to_rbg]
     split_ifs <;>
       (apply Frac.toU16_le
        simp only [Frac.toRat_add, Frac.toRat_sub, Frac.toRat_mul, Frac.toRat_div,
          Frac.toRat_fabs, Frac.toRat_natCast, Frac.toRat_lit]
        push_cast
        nlinarith [mul_nonneg hs0 hv0, mul_nonneg (mul_nonneg hs0 hv0) habs0,
          mul_le_of_le_one_right (mul_nonneg hs0 hv0) habs1]))

theorem hue_branch_bound (aa bb delta off : Frac) (hoff : 60 ≤ off.toRat)
    (hd : 0 < delta.toRat) (h1 : -(delta.toRat) ≤ aa.toRat - bb.toRat) :
    (Frac.rustRem (60 * ((aa - bb) / delta) + off) 360).toU16 < 360 := by
  apply Frac.toU16_lt _ _ (by norm_num)
  have h360 : ((360:Frac)).toRat = 360 := by
    simp only [Frac.toRat_lit]
    norm_num
  have hratio : -1 ≤ (aa.toRat - bb.toRat) / delta.toRat := by
    rw [le_div_iff hd]
    linarith
  have hopnd : 0 ≤ (60 * ((aa - bb) / delta) + off).toRat := by
    simp only [Frac.toRat_add, Frac.toRat_mul, Frac.toRat_div, Frac.toRat_sub,
      Frac.toRat_lit]
    push_cast
    nlinarith
  have hrem := Frac.rustRem_nonneg_lt (60 * ((aa - bb) / delta) + off) 360 hopnd
    (by rw [h360]; norm_num)
  rw [h360] at hrem
  have : ((360:ℕ) : ℚ) = 360 := by norm_num
  rw [this]
  exact hrem.2

set_option maxHeartbeats 2000000 in
theorem rgb_to_hsv_bounds (r g b : ℕ) (hr : r ≤ 255) (hg : g ≤ 255) (hb : b ≤ 255) :
    (rgb_to_hsv r g b).1 < 360 ∧ (rgb_to_hsv r g b).2.1 ≤ 100 ∧
    (rgb_to_hsv r g b).2.2 ≤ 100 := by
  have hr0 : (0:ℚ) ≤ (r:ℚ)/255 := by positivity
  have hg0 : (0:ℚ) ≤ (g:ℚ)/255 := by positivity
  have hb0 : (0:ℚ) ≤ (b:ℚ)/255 := by positivity
  have hr1 : (r:ℚ)/255 ≤ 1 := by
    rw [div_le_one (by norm_num)]
    exact_mod_cast hr
  have hg1 : (g:ℚ)/255 ≤ 1 := by
    rw [div_le_one (by norm_num)]
    exact_mod_cast hg
  have hb1 : (b:ℚ)/255 ≤ 1 := by
    rw [div_le_one (by norm_num)]
    exact_mod_cast hb
  have hA1 : (r:ℚ)/255 ≤ max ((r:ℚ)/255) (max ((g:ℚ)/255) ((b:ℚ)/255)) :=
    le_max_left _ _
  have hA2 : (g:ℚ)/255 ≤ max ((r:ℚ)/255) (max ((g:ℚ)/255) ((b:ℚ)/255)) :=
    le_max_of_le_right (le_max_left _ _)
  have hA3 : (b:ℚ)/255 ≤ max ((r:ℚ)/255) (max ((g:ℚ)/255) ((b:ℚ)/255)) :=
    le_max_of_le_right (le_max_right _ _)
  have hB1 : min ((r:ℚ)/255) (min ((g:ℚ)/255) ((b:ℚ)/255)) ≤ (r:ℚ)/255 :=
    min_le_left _ _
  have hB2 : min ((r:ℚ)/255) (min ((g:ℚ)/255) ((b:ℚ)/255)) ≤ (g:ℚ)/255 :=
    min_le_of_right_le (min_le_left _ _)
  have hB3 : min ((r:ℚ)/255) (min ((g:ℚ)/255) ((b:ℚ)/255)) ≤ (b:ℚ)/255 :=
    min_le_of_right_le (min_le_right _ _)
  have hmax1 : max ((r:ℚ)/255) (max ((g:ℚ)/255) ((b:ℚ)/255)) ≤ 1 :=
    max_le hr1 (max_le hg1 hb1)
  have hmin0 : (0:ℚ) ≤ min ((r:ℚ)/255) (min ((g:ℚ)/255) ((b:ℚ)/255)) :=
    le_min hr0 (le_min hg0 hb0)
  refine ⟨?_, ?_, ?_⟩
  · -- hue component
    simp only [rgb_to_hsv]
    split_ifs with hsmall hcr hcg hcb
    · decide
    all_goals try (
      apply hue_branch_bound
      · simp only [Frac.toRat_lit]
        norm_num
      · rw [Frac.le_iff] at hsmall
        have heps : (((1:Frac) / 10000)).toRat = 1/10000 := by
          simp only [Frac.toRat_div, Frac.toRat_lit]
          norm_num
        rw [heps] at hsmall
        have := lt_of_not_le hsmall
        simp only [Frac.toRat_sub, Frac.toRat_fmax, Frac.toRat_fmin, Frac.toRat_div,
          Frac.toRat_natCast, Frac.toRat_lit] at this ⊢
        linarith
      · simp only [Frac.toRat_sub, Frac.toRat_fmax, Frac.toRat_fmin, Frac.toRat_div,
          Frac.toRat_natCast, Frac.toRat_lit]
        linarith)
    · decide
  · -- saturation component
    simp only [rgb_to_hsv]
    split_ifs with hne
    · decide
    · apply Frac.toU16_le
      rw [Frac.beq_iff] at hne
      simp only [Frac.toRat_mul, Frac.toRat_sub, Frac.toRat_div, Frac.toRat_fmax,
        Frac.toRat_fmin, Frac.toRat_natCast, Frac.toRat_lit] at hne ⊢
      push_cast at hne ⊢
      have hmaxpos : (0:ℚ) < max ((r:ℚ)/255) (max ((g:ℚ)/255) ((b:ℚ)/255)) :=
        lt_of_le_of_ne (le_trans hr0 hA1) (Ne.symm hne)
      have hfrac : (max ((r:ℚ)/255) (max ((g:ℚ)/255) ((b:ℚ)/255)) -
          min ((r:ℚ)/255) (min ((g:ℚ)/255) ((b:ℚ)/255))) /
          max ((r:ℚ)/255) (max ((g:ℚ)/255) ((b:ℚ)/255)) ≤ 1 := by
        rw [div_le_one hmaxpos]
        linarith
      have hfrac0 : (0:ℚ) ≤ (max ((r:ℚ)/255) (max ((g:ℚ)/255) ((b:ℚ)/255)) -
          min ((r:ℚ)/255) (min ((g:ℚ)/255) ((b:ℚ)/255))) /
          max ((r:ℚ)/255) (max ((g:ℚ)/255) ((b:ℚ)/255)) := by
        have : (0:ℚ) ≤ max ((r:ℚ)/255) (max ((g:ℚ)/255) ((b:ℚ)/255)) -
            min ((r:ℚ)/255) (min ((g:ℚ)/255) ((b:ℚ)/255)) := by
          linarith [le_trans hB1 hA1]
        positivity
      nlinarith
  · -- value component
    simp only [rgb_to_hsv]
    apply Frac.toU16_le
    simp only [Frac.toRat_mul, Frac.toRat_div, Frac.toRat_fmax, Frac.toRat_natCast,
      Frac.toRat_lit]
    push_cast
    nlinarith

/-- The field ranges the data model declares, with the hue upper bound
relaxed to the closed interval that the code actually maintains. -/
def Color.InRange (c : Color) : Prop :=
  c.r ≤ 255 ∧ c.g ≤ 255 ∧ c.b ≤ 255 ∧ c.h ≤ 360 ∧ c.s ≤ 100 ∧ c.v ≤ 100

instance (c : Color) : Decidable c.InRange := by
  unfold Color.InRange
  infer_instance

/-- C6 amended: every constructor clamps its inputs and produces fields
with `r,g,b ∈ [0,255]`, `s,v ∈ [0,100]`, and `h ∈ [0,360]`; the hue is
strictly below 360 for `from_rgb` and `from_hex`, while `from_hsv` can
produce `h = 360` exactly (its clamp upper bound is 360 inclusive). -/
theorem C6_constructor_ranges :
    (∀ r g b : ℕ, (Color.from_rgb r g b).InRange ∧ (Color.from_rgb r g b).h < 360) ∧
    (∀ h s v : ℕ, (Color.from_hsv h s v).InRange) ∧
    (∀ s c, Color.from_hex s = some c → c.InRange ∧ c.h < 360) := by
  refine ⟨?_, ?_, ?_⟩
  · intro r g b
    have hcb := rgb_to_hsv_bounds (clampN r 0 255) (clampN g 0 255) (clampN b 0 255)
      (by simp [clampN]) (by simp [clampN]) (by simp [clampN])
    simp only [Color.from_rgb, Color.InRange]
    refine ⟨⟨?_, ?_, ?_, ?_, ?_, ?_⟩, ?_⟩
    · simp [clampN]
    · simp [clampN]
    · simp [clampN]
    · exact le_of_lt (lt_of_lt_of_le hcb.1 (by norm_num))
    · exact hcb.2.1
    · exact hcb.2.2
    · exact hcb.1
  · intro h s v
    have hcb := hsv_to_rbg_le255 (clampN h 0 360) (clampN s 0 100) (clampN v 0 100)
      (by simp [clampN]) (by simp [clampN])
    simp only [Color.from_hsv, Color.InRange]
    exact ⟨hcb.1, hcb.2.1, hcb.2.2, by simp [clampN], by simp [clampN], by simp [clampN]⟩
  · intro s c hc
    rw [Color.from_hex] at hc
    split at hc
    · exact absurd hc (by simp)
    · split at hc
      · exact absurd hc (by simp)
      · split at hc
        · exact absurd hc (by simp)
        · rename_i v heq
          have h1 : v / 65536 % 256 ≤ 255 := by omega
          have h2 : v / 256 % 256 ≤ 255 := by omega
          have h3 : v % 256 ≤ 255 := by omega
          have hcb := rgb_to_hsv_bounds _ _ _ h1 h2 h3
          cases hc
          exact ⟨⟨h1, h2, h3,
            le_of_lt (lt_of_lt_of_le hcb.1 (by norm_num)), hcb.2.1, hcb.2.2⟩, hcb.1⟩

/-- Witness for C6 at concrete constructor calls (discharging the
`from_hex` hypothesis at `"#1E90FF"`). -/
theorem C6_constructor_ranges_witness :
    (Color.from_rgb 300 0 0).InRange ∧
    (Color.from_hsv 400 50 50).InRange ∧
    ((Color.from_hex "#1E90FF").get (by decide)).InRange :=
  ⟨(C6_constructor_ranges.1 300 0 0).1,
   C6_constructor_ranges.2.1 400 50 50,
   (C6_constructor_ranges.2.2 "#1E90FF" _ (Option.some_get _).symm).1⟩

theorem Frac.toU16_cast_le (X : Frac) (h0 : 0 ≤ X.toRat) :
    ((X.toU16 : ℚ)) ≤ X.toRat := by
  rw [Frac.toU16_eq]
  calc ((min 65535 ⌊X.toRat⌋₊ : ℕ) : ℚ)
      ≤ ((⌊X.toRat⌋₊ : ℕ) : ℚ) := by
        exact_mod_cast min_le_right _ _
    _ ≤ X.toRat := Nat.floor_le h0

theorem Frac.sub_one_lt_toU16_cast (X : Frac) (hle : X.toRat ≤ 65535) :
    X.toRat - 1 < ((X.toU16 : ℚ)) := by
  rw [Frac.toU16_eq]
  have hfl : ⌊X.toRat⌋₊ ≤ 65535 := by
    have := Nat.floor_le_floor (α := ℚ) hle
    simpa using this
  rw [min_eq_right hfl]
  have := Nat.lt_floor_add_one X.toRat
  linarith

set_option maxHeartbeats 4000000 in
theorem hsv_channel_facts (h s v : ℕ) (hs : s ≤ 100) (hv : v ≤ 100) :
    (((hsv_to_rbg h s v).1 : ℚ) ≤ (v:ℚ)*255/100 ∧
     ((hsv_to_rbg h s v).2.1 : ℚ) ≤ (v:ℚ)*255/100 ∧
     ((hsv_to_rbg h s v).2.2 : ℚ) ≤ (v:ℚ)*255/100) ∧
    ((v:ℚ)*255/100 - 1 < ((hsv_to_rbg h s v).1 : ℚ) ∨
     (v:ℚ)*255/100 - 1 < ((hsv_to_rbg h s v).2.1 : ℚ) ∨
     (v:ℚ)*255/100 - 1 < ((hsv_to_rbg h s v).2.2 : ℚ)) := by
  have hs0 : (0:ℚ) ≤ (s:ℚ) := by positivity
  have hv0 : (0:ℚ) ≤ (v:ℚ) := by positivity
  have hs1 : (s:ℚ) ≤ 100 := by exact_mod_cast hs
  have hv1 : (v:ℚ) ≤ 100 := by exact_mod_cast hv
  have hrem := Frac.rustRem_nonneg_lt ((h : Frac) / 60) 2
    (by simp only [Frac.toRat_div, Frac.toRat_natCast, Frac.toRat_lit]; positivity)
    (by simp only [Frac.toRat_lit]; norm_num)
  rw [show ((2:Frac)).toRat = (2:ℚ) by simp only [Frac.toRat_lit]; norm_num] at hrem
  obtain ⟨hrem0, hrem2⟩ := hrem
  have habs0 : (0:ℚ) ≤ |(Frac.rustRem ((h : Frac) / 60) 2).toRat - 1| := abs_nonneg _
  have habs1 : |(Frac.rustRem ((h : Frac) / 60) 2).toRat - 1| ≤ 1 := by
    rw [abs_le]
    constructor <;> linarith
  have hub : ∀ X : Frac, 0 ≤ X.toRat → X.toRat ≤ (v:ℚ)*255/100 →
      ((X.toU16 : ℚ)) ≤ (v:ℚ)*255/100 :=
    fun X h0 h1 => le_trans (Frac.toU16_cast_le X h0) h1
  have hlb : ∀ X : Frac, X.toRat = (v:ℚ)*255/100 →
      (v:ℚ)*255/100 - 1 < ((X.toU16 : ℚ)) := by
    intro X hX
    have := Frac.sub_one_lt_toU16_cast X (by rw [hX]; nlinarith)
    rw [hX] at this
    exact this
  simp only [hsv_to_rbg]
  split_ifs
  · refine ⟨⟨hub _ ?_ ?_, hub _ ?_ ?_, hub _ ?_ ?_⟩,
      Or.inl (hlb _ (by simp only [Frac.toRat_mul, Frac.toRat_add, Frac.toRat_sub, Frac.toRat_div, Frac.toRat_fabs, Frac.toRat_natCast, Frac.toRat_lit]; push_cast; ring))⟩ <;>
      (simp only [Frac.toRat_mul, Frac.toRat_add, Frac.toRat_sub, Frac.toRat_div, Frac.toRat_fabs, Frac.toRat_natCast, Frac.toRat_lit]; push_cast; nlinarith [mul_nonneg hs0 hv0, mul_nonneg (mul_nonneg hs0 hv0) habs0, mul_le_of_le_one_right (mul_nonneg hs0 hv0) habs1])
  · refine ⟨⟨hub _ ?_ ?_, hub _ ?_ ?_, hub _ ?_ ?_⟩,
      Or.inr (Or.inl (hlb _ (by simp only [Frac.toRat_mul, Frac.toRat_add, Frac.toRat_sub, Frac.toRat_div, Frac.toRat_fabs, Frac.toRat_natCast, Frac.toRat_lit]; push_cast; ring)))⟩ <;>
      (simp only [Frac.toRat_mul, Frac.toRat_add, Frac.toRat_sub, Frac.toRat_div, Frac.toRat_fabs, Frac.toRat_natCast, Frac.toRat_lit]; push_cast; nlinarith [mul_nonneg hs0 hv0, mul_nonneg (mul_nonneg hs0 hv0) habs0, mul_le_of_le_one_right (mul_nonneg hs0 hv0) habs1])
  · refine ⟨⟨hub _ ?_ ?_, hub _ ?_ ?_, hub _ ?_ ?_⟩,
      Or.inr (Or.inl (hlb _ (by simp only [Frac.toRat_mul, Frac.toRat_add, Frac.toRat_sub, Frac.toRat_div, Frac.toRat_fabs, Frac.toRat_natCast, Frac.toRat_lit]; push_cast; ring)))⟩ <;>
      (simp only [Frac.toRat_mul, Frac.toRat_add, Frac.toRat_sub, Frac.toRat_div, Frac.toRat_fabs, Frac.toRat_natCast, Frac.toRat_lit]; push_cast; nlinarith [mul_nonneg hs0 hv0, mul_nonneg (mul_nonneg hs0 hv0) habs0, mul_le_of_le_one_right (mul_nonneg hs0 hv0) habs1])
  · refine ⟨⟨hub _ ?_ ?_, hub _ ?_ ?_, hub _ ?_ ?_⟩,
      Or.inr (Or.inr (hlb _ (by simp only [Frac.toRat_mul, Frac.toRat_add, Frac.toRat_sub, Frac.toRat_div, Frac.toRat_fabs, Frac.toRat_natCast, Frac.toRat_lit]; push_cast; ring)))⟩ <;>
      (simp only [Frac.toRat_mul, Frac.toRat_add, Frac.toRat_sub, Frac.toRat_div, Frac.toRat_fabs, Frac.toRat_natCast, Frac.toRat_lit]; push_cast; nlinarith [mul_nonneg hs0 hv0, mul_nonneg (mul_nonneg hs0 hv0) habs0, mul_le_of_le_one_right (mul_nonneg hs0 hv0) habs1])
  · refine ⟨⟨hub _ ?_ ?_, hub _ ?_ ?_, hub _ ?_ ?_⟩,
      Or.inr (Or.inr (hlb _ (by simp only [Frac.toRat_mul, Frac.toRat_add, Frac.toRat_sub, Frac.toRat_div, Frac.toRat_fabs, Frac.toRat_natCast, Frac.toRat_lit]; push_cast; ring)))⟩ <;>
      (simp only [Frac.toRat_mul, Frac.toRat_add, Frac.toRat_sub, Frac.toRat_div, Frac.toRat_fabs, Frac.toRat_natCast, Frac.toRat_lit]; push_cast; nlinarith [mul_nonneg hs0 hv0, mul_nonneg (mul_nonneg hs0 hv0) habs0, mul_le_of_le_one_right (mul_nonneg hs0 hv0) habs1])
  · refine ⟨⟨hub _ ?_ ?_, hub _ ?_ ?_, hub _ ?_ ?_⟩,
      Or.inl (hlb _ (by simp only [Frac.toRat_mul, Frac.toRat_add, Frac.toRat_sub, Frac.toRat_div, Frac.toRat_fabs, Frac.toRat_natCast, Frac.toRat_lit]; push_cast; ring))⟩ <;>
      (simp only [Frac.toRat_mul, Frac.toRat_add, Frac.toRat_sub, Frac.toRat_div, Frac.toRat_fabs, Frac.toRat_natCast, Frac.toRat_lit]; push_cast; nlinarith [mul_nonneg hs0 hv0, mul_nonneg (mul_nonneg hs0 hv0) habs0, mul_le_of_le_one_right (mul_nonneg hs0 hv0) habs1])

theorem rgb_to_hsv_v_eq (r g b : ℕ) : (rgb_to_hsv r g b).2.2 =
    Frac.toU16 ((((r:Frac)/255).fmax (((g:Frac)/255).fmax ((b:Frac)/255))) * 100) :=
  rfl

theorem v_recover_bounds (r' g' b' v : ℕ) (hv : v ≤ 100)
    (hu1 : (r':ℚ) ≤ (v:ℚ)*255/100) (hu2 : (g':ℚ) ≤ (v:ℚ)*255/100)
    (hu3 : (b':ℚ) ≤ (v:ℚ)*255/100)
    (hl : (v:ℚ)*255/100 - 1 < (r':ℚ) ∨ (v:ℚ)*255/100 - 1 < (g':ℚ) ∨
      (v:ℚ)*255/100 - 1 < (b':ℚ)) :
    (rgb_to_hsv r' g' b').2.2 ≤ v ∧ v ≤ (rgb_to_hsv r' g' b').2.2 + 1 := by
  rw [rgb_to_hsv_v_eq]
  have hQ : ((((r':Frac)/255).fmax (((g':Frac)/255).fmax ((b':Frac)/255))) * 100).toRat =
      max ((r':ℚ)/255) (max ((g':ℚ)/255) ((b':ℚ)/255)) * 100 := by
    simp only [Frac.toRat_mul, Frac.toRat_fmax, Frac.toRat_div, Frac.toRat_natCast,
      Frac.toRat_lit]
    push_cast
    ring
  have hmle : max ((r':ℚ)/255) (max ((g':ℚ)/255) ((b':ℚ)/255)) ≤ (v:ℚ)/100 :=
    max_le (by linarith) (max_le (by linarith) (by linarith))
  constructor
  · apply Frac.toU16_le
    rw [hQ]
    linarith
  · have hXle : ((((r':Frac)/255).fmax (((g':Frac)/255).fmax ((b':Frac)/255))) * 100).toRat
        ≤ 100 := by
      rw [hQ]
      have hvq : (v:ℚ) ≤ 100 := by exact_mod_cast hv
      nlinarith [hvq]
    have hXgt : ((v:ℚ)) - 1 <
        ((((r':Frac)/255).fmax (((g':Frac)/255).fmax ((b':Frac)/255))) * 100).toRat := by
      rw [hQ]
      have e1 : ((r':ℚ)/255) ≤ max ((r':ℚ)/255) (max ((g':ℚ)/255) ((b':ℚ)/255)) :=
        le_max_left _ _
      have e2 : ((g':ℚ)/255) ≤ max ((r':ℚ)/255) (max ((g':ℚ)/255) ((b':ℚ)/255)) :=
        le_max_of_le_right (le_max_left _ _)
      have e3 : ((b':ℚ)/255) ≤ max ((r':ℚ)/255) (max ((g':ℚ)/255) ((b':ℚ)/255)) :=
        le_max_of_le_right (le_max_right _ _)
      rcases hl with hli | hli | hli <;> linarith
    rw [Frac.toU16_eq]
    have hfl_le : ⌊((((r':Frac)/255).fmax (((g':Frac)/255).fmax ((b':Frac)/255))) *
        100).toRat⌋₊ ≤ 100 := by
      have := Nat.floor_le_floor (α := ℚ) hXle
      simpa using this
    rw [min_eq_right (le_trans hfl_le (by norm_num))]
    rcases Nat.eq_zero_or_pos v with rfl | hvpos
    · omega
    · have hsub : ((v - 1 : ℕ) : ℚ) ≤
          ((((r':Frac)/255).fmax (((g':Frac)/255).fmax ((b':Frac)/255))) * 100).toRat := by
        rw [Nat.cast_sub hvpos]
        push_cast
        linarith
      have := Nat.le_floor hsub
      omega

theorem roundtrip_v_within_one (h s v : ℕ) (hs : s ≤ 100) (hv : v ≤ 100) :
    (rgb_to_hsv (hsv_to_rbg h s v).1 (hsv_to_rbg h s v).2.1 (hsv_to_rbg h s v).2.2).2.2 ≤ v ∧
    v ≤ (rgb_to_hsv (hsv_to_rbg h s v).1 (hsv_to_rbg h s v).2.1 (hsv_to_rbg h s v).2.2).2.2
      + 1 := by
  obtain ⟨⟨hu1, hu2, hu3⟩, hlow⟩ := hsv_channel_facts h s v hs hv
  exact v_recover_bounds _ _ _ v hv hu1 hu2 hu3 hlow

set_option maxRecDepth 100000 in
/-- C3 amended: the HSV→RGB→HSV round trip recovers `v` within 1 unit
for every `h` and all `s,v ∈ [0,100]`, and at full chroma (`s = v = 100`)
it also recovers `h` within 1 unit and `s`,`v` exactly; at low chroma the
hue and saturation may deviate by more than 1 unit (counterexample
`(200,1,50) ↦ (180,0,49)`). -/
theorem C3_roundtrip_amended :
    (∀ h s v : ℕ, s ≤ 100 → v ≤ 100 →
      ((rgb_to_hsv (hsv_to_rbg h s v).1 (hsv_to_rbg h s v).2.1
          (hsv_to_rbg h s v).2.2).2.2 ≤ v ∧
       v ≤ (rgb_to_hsv (hsv_to_rbg h s v).1 (hsv_to_rbg h s v).2.1
          (hsv_to_rbg h s v).2.2).2.2 + 1)) ∧
    (∀ h : ℕ, h < 360 →
      ((rgb_to_hsv (hsv_to_rbg h 100 100).1 (hsv_to_rbg h 100 100).2.1
          (hsv_to_rbg h 100 100).2.2).1 ≤ h + 1 ∧
       h ≤ (rgb_to_hsv (hsv_to_rbg h 100 100).1 (hsv_to_rbg h 100 100).2.1
          (hsv_to_rbg h 100 100).2.2).1 + 1 ∧
       (rgb_to_hsv (hsv_to_rbg h 100 100).1 (hsv_to_rbg h 100 100).2.1
          (hsv_to_rbg h 100 100).2.2).2.1 = 100 ∧
       (rgb_to_hsv (hsv_to_rbg h 100 100).1 (hsv_to_rbg h 100 100).2.1
          (hsv_to_rbg h 100 100).2.2).2.2 = 100)) := by
  constructor
  · intro h s v hs hv
    exact roundtrip_v_within_one h s v hs hv
  · decide

/-- Witness for C3 at `(h,s,v) = (200,1,50)` (general `v` bound) and at
`h = 0` on the full-chroma grid. -/
theorem C3_roundtrip_amended_witness :
    ((rgb_to_hsv (hsv_to_rbg 200 1 50).1 (hsv_to_rbg 200 1 50).2.1
        (hsv_to_rbg 200 1 50).2.2).2.2 ≤ 50 ∧
     50 ≤ (rgb_to_hsv (hsv_to_rbg 200 1 50).1 (hsv_to_rbg 200 1 50).2.1
        (hsv_to_rbg 200 1 50).2.2).2.2 + 1) ∧
    ((rgb_to_hsv (hsv_to_rbg 0 100 100).1 (hsv_to_rbg 0 100 100).2.1
        (hsv_to_rbg 0 100 100).2.2).1 ≤ 0 + 1 ∧
     0 ≤ (rgb_to_hsv (hsv_to_rbg 0 100 100).1 (hsv_to_rbg 0 100 100).2.1
        (hsv_to_rbg 0 100 100).2.2).1 + 1 ∧
     (rgb_to_hsv (hsv_to_rbg 0 100 100).1 (hsv_to_rbg 0 100 100).2.1
        (hsv_to_rbg 0 100 100).2.2).2.1 = 100 ∧
     (rgb_to_hsv (hsv_to_rbg 0 100 100).1 (hsv_to_rbg 0 100 100).2.1
        (hsv_to_rbg 0 100 100).2.2).2.2 = 100) :=
  ⟨C3_roundtrip_amended.1 200 1 50 (by decide) (by decide),
   C3_roundtrip_amended.2 0 (by decide)⟩

theorem ascii_utf8Size (c : Char) (h : c.toNat < 128) : c.utf8Size = 1 := by
  rw [Char.utf8Size]
  rw [if_pos]
  rw [UInt32.le_def]
  rw [BitVec.le_def]
  show c.val.toNat ≤ 127
  exact Nat.le_of_lt_succ h

theorem hexDigitVal_facts (c : Char) (d : ℕ) (h : hexDigitVal? c = some d) :
    d < 16 ∧ c.toNat < 128 ∧ c ≠ '+' := by
  have hplus : ('+').toNat = 43 := by decide
  rw [hexDigitVal?] at h
  split_ifs at h with h1 h2 h3 <;>
    (injection h with h
     refine ⟨by omega, by omega, ?_⟩
     intro hc
     have h43 : c.toNat = 43 := by rw [hc, hplus]
     omega)

theorem stripHash_eq_some (l rest : List Char) :
    stripHash l = some rest ↔ l = '#' :: rest := by
  cases l with
  | nil => simp [stripHash]
  | cons c t =>
    rw [stripHash]
    by_cases hc : c = '#'
    · subst hc
      simp
    · simp [hc]

/-- C4 amended: `from_hex` requires byte length 7 and a leading `'#'`,
and decodes three bytes from the six following hex digits; but the
underlying integer parser also tolerates a single leading `'+'` (so
`"#+12345"` is accepted, see the counterexample).  The stated examples
hold: `"#1E90FF" ↦ (30,144,255)`, while `"bad"` and `"#12345"` are
rejected. -/
theorem C4_from_hex_amended :
    ((Color.from_hex "#1E90FF").map (fun c => (c.r, c.g, c.b)) = some (30, 144, 255)) ∧
    (Color.from_hex "bad" = none ∧ Color.from_hex "#12345" = none) ∧
    (∀ s : String, utf8Len s.data ≠ 7 → Color.from_hex s = none) ∧
    (∀ c1 c2 c3 c4 c5 c6 : Char, ∀ d1 d2 d3 d4 d5 d6 : ℕ,
      hexDigitVal? c1 = some d1 → hexDigitVal? c2 = some d2 →
      hexDigitVal? c3 = some d3 → hexDigitVal? c4 = some d4 →
      hexDigitVal? c5 = some d5 → hexDigitVal? c6 = some d6 →
      (Color.from_hex ⟨['#', c1, c2, c3, c4, c5, c6]⟩).map (fun c => (c.r, c.g, c.b)) =
        some (16*d1 + d2, 16*d3 + d4, 16*d5 + d6)) ∧
    (∀ s : String, ∀ c : Color, Color.from_hex s = some c →
      utf8Len s.data = 7 ∧
      ∃ rest, s.data = '#' :: rest ∧ (from_str_radix_u32_hex rest).isSome = true) := by
  refine ⟨by decide, ⟨by decide, by decide⟩, ?_, ?_, ?_⟩
  · intro s hlen
    rw [Color.from_hex, if_pos hlen]
  · intro c1 c2 c3 c4 c5 c6 d1 d2 d3 d4 d5 d6 h1 h2 h3 h4 h5 h6
    obtain ⟨hd1, ha1, hp1⟩ := hexDigitVal_facts _ _ h1
    obtain ⟨hd2, ha2, hp2⟩ := hexDigitVal_facts _ _ h2
    obtain ⟨hd3, ha3, hp3⟩ := hexDigitVal_facts _ _ h3
    obtain ⟨hd4, ha4, hp4⟩ := hexDigitVal_facts _ _ h4
    obtain ⟨hd5, ha5, hp5⟩ := hexDigitVal_facts _ _ h5
    obtain ⟨hd6, ha6, hp6⟩ := hexDigitVal_facts _ _ h6
    have hdata : (String.mk ['#', c1, c2, c3, c4, c5, c6]).data =
        ['#', c1, c2, c3, c4, c5, c6] := rfl
    have hlen : utf8Len (String.mk ['#', c1, c2, c3, c4, c5, c6]).data = 7 := by
      rw [hdata, utf8Len]
      simp only [List.map, List.sum_cons, List.sum_nil]
      rw [ascii_utf8Size c1 ha1, ascii_utf8Size c2 ha2, ascii_utf8Size c3 ha3,
        ascii_utf8Size c4 ha4, ascii_utf8Size c5 ha5, ascii_utf8Size c6 ha6,
        show ('#').utf8Size = 1 from rfl]
      decide
    have hstrip : stripHash (String.mk ['#', c1, c2, c3, c4, c5, c6]).data =
        some [c1, c2, c3, c4, c5, c6] := by
      rw [hdata]
      exact (stripHash_eq_some _ _).mpr rfl
    have hparse : from_str_radix_u32_hex [c1, c2, c3, c4, c5, c6] =
        some ((((((0*16 + d1)*16 + d2)*16 + d3)*16 + d4)*16 + d5)*16 + d6) := by
      rw [from_str_radix_u32_hex]
      simp only [List.head?_cons, Option.some.injEq]
      rw [if_neg hp1]
      rw [if_neg (by simp)]
      simp only [parseHexNat, h1, h2, h3, h4, h5, h6]
      rw [if_pos (by omega)]
    rw [Color.from_hex, if_neg (by rw [hlen]; omega)]
    simp only [hstrip, hparse, Option.map_some]
    refine congrArg some ?_
    refine Prod.ext ?_ (Prod.ext ?_ ?_) <;> simp <;> omega
  · intro s c hc
    rw [Color.from_hex] at hc
    split at hc
    · exact absurd hc (by simp)
    · rename_i hlen
      split at hc
      · exact absurd hc (by simp)
      · rename_i rest hsome
        split at hc
        · exact absurd hc (by simp)
        · rename_i v hv
          exact ⟨by omega, rest, (stripHash_eq_some _ _).mp hsome, by rw [hv]; rfl⟩

/-- Witness for C4, discharging the hypotheses of the decode direction at
the digits of `"#1E90FF"`, of the length direction at `"bad"`, and of the
acceptance direction at `"#1E90FF"`. -/
theorem C4_from_hex_amended_witness :
    ((Color.from_hex ⟨['#', '1', 'E', '9', '0', 'F', 'F']⟩).map
      (fun c => (c.r, c.g, c.b)) = some (16*1 + 14, 16*9 + 0, 16*15 + 15)) ∧
    Color.from_hex "bad" = none ∧
    (utf8Len "#1E90FF".data = 7 ∧
     ∃ rest, "#1E90FF".data = '#' :: rest ∧
       (from_str_radix_u32_hex rest).isSome = true) :=
  ⟨C4_from_hex_amended.2.2.2.1 '1' 'E' '9' '0' 'F' 'F' 1 14 9 0 15 15
      (by decide) (by decide) (by decide) (by decide) (by decide) (by decide),
   C4_from_hex_amended.2.2.1 "bad" (by decide),
   C4_from_hex_amended.2.2.2.2 "#1E90FF" (Color.from_rgb 30 144 255) (by decide)⟩

theorem Frac.toU16_congr (a b : Frac) (h : a.toRat = b.toRat) : a.toU16 = b.toU16 := by
  rw [Frac.toU16_eq, Frac.toU16_eq, h]

theorem Frac.toRat_fclamp (x lo hi : Frac) (h : lo.toRat ≤ hi.toRat) :
    (x.fclamp lo hi).toRat = min hi.toRat (max lo.toRat x.toRat) := by
  rw [Frac.fclamp]
  split_ifs with h1 h2
  · rw [Frac.lt_iff] at h1
    rw [max_eq_left (le_of_lt h1), min_eq_right h]
  · rw [Frac.lt_iff] at h2
    have h1' : ¬ (x.lt lo = true) := by assumption
    rw [Frac.lt_iff] at h1'
    push_neg at h1'
    rw [max_eq_right h1', min_eq_left (le_of_lt h2)]
  · have h1' : ¬ (x.lt lo = true) := by assumption
    have h2' : ¬ (hi.lt x = true) := by assumption
    rw [Frac.lt_iff] at h1' h2'
    push_neg at h1' h2'
    rw [max_eq_right h1', min_eq_right h2']

theorem Frac.fclamp_mem (x lo hi : Frac) (h : lo.toRat ≤ hi.toRat) :
    lo.toRat ≤ (x.fclamp lo hi).toRat ∧ (x.fclamp lo hi).toRat ≤ hi.toRat := by
  rw [Frac.toRat_fclamp x lo hi h]
  constructor
  · exact le_min h (le_max_left _ _)
  · exact min_le_left _ _

theorem Frac.toU16_ofInt (n : ℤ) : (Frac.ofInt n).toU16 = min 65535 n.toNat := by
  rw [Frac.toU16, Frac.floor, Frac.ofInt]
  norm_num

theorem clampN_eq_self (x m : ℕ) (h : x ≤ m) : clampN x 0 m = x := by
  simp [clampN]
  omega

/-- The per-channel maximum of the spec: 255 for `r`,`g`,`b`, 360 for
`h`, 100 for `s`,`v`. -/
def channelMax : String → ℕ
  | "h" => 360
  | "s" => 100
  | "v" => 100
  | _ => 255

set_option maxHeartbeats 1600000 in
/-- C7 amended: during a slider drag with pointer abscissa `x` in a
rectangle of width `w`, the addressed channel is set to
`trunc(t * channelMax)` (truncation, not round-to-nearest) where
`t = clamp(x,0,w)/w`, and the other channels of the addressed
representation are unchanged. -/
theorem C7_slider_drag_amended (cur : Color) (hcur : cur.InRange) (x w : Frac)
    (hw : 0 < w.toRat) :
    (∀ c ∈ sliderLabels,
      (handle_gradient_click cur (GradientType.Slider c) x 0 w 1).value_by_name c
        = ((x.fclamp 0 w) / w * ((channelMax c : ℕ) : Frac)).toU16) ∧
    (handle_gradient_click cur (GradientType.Slider "r") x 0 w 1).g = cur.g ∧
    (handle_gradient_click cur (GradientType.Slider "r") x 0 w 1).b = cur.b ∧
    (handle_gradient_click cur (GradientType.Slider "g") x 0 w 1).r = cur.r ∧
    (handle_gradient_click cur (GradientType.Slider "g") x 0 w 1).b = cur.b ∧
    (handle_gradient_click cur (GradientType.Slider "b") x 0 w 1).r = cur.r ∧
    (handle_gradient_click cur (GradientType.Slider "b") x 0 w 1).g = cur.g ∧
    (handle_gradient_click cur (GradientType.Slider "h") x 0 w 1).s = cur.s ∧
    (handle_gradient_click cur (GradientType.Slider "h") x 0 w 1).v = cur.v ∧
    (handle_gradient_click cur (GradientType.Slider "s") x 0 w 1).h = cur.h ∧
    (handle_gradient_click cur (GradientType.Slider "s") x 0 w 1).v = cur.v ∧
    (handle_gradient_click cur (GradientType.Slider "v") x 0 w 1).h = cur.h ∧
    (handle_gradient_click cur (GradientType.Slider "v") x 0 w 1).s = cur.s := by
  have h0w : (0:ℚ) ≤ w.toRat := le_of_lt hw
  have hpx := Frac.fclamp_mem x 0 w (by simp only [Frac.toRat_lit]; push_cast; linarith)
  simp only [Frac.toRat_lit] at hpx
  push_cast at hpx
  obtain ⟨hpx0, hpx1⟩ := hpx
  have htle : (x.fclamp 0 w).toRat / w.toRat ≤ 1 := by
    rw [div_le_one hw]
    exact hpx1
  have ht0 : 0 ≤ (x.fclamp 0 w).toRat / w.toRat := div_nonneg hpx0 h0w
  obtain ⟨hr255, hg255, hb255, hh360, hs100, hv100⟩ := hcur
  refine ⟨?_, ?_, ?_, ?_, ?_, ?_, ?_, ?_, ?_, ?_, ?_, ?_, ?_⟩
  · intro c hc
    fin_cases hc
    · have hred : (handle_gradient_click cur (GradientType.Slider "r") x 0 w 1).value_by_name "r"
          = clampN (clampN (((x.fclamp 0 w - 0) / (w - 0) * ((255:ℕ) : Frac)).toU16) 0 255) 0 255 := rfl
      rw [hred, show (channelMax "r") = 255 from rfl]
      have hT : ((x.fclamp 0 w - 0) / (w - 0) * ((255:ℕ) : Frac)).toU16
          = ((x.fclamp 0 w) / w * ((255:ℕ) : Frac)).toU16 := by
        apply Frac.toU16_congr
        simp only [Frac.toRat_mul, Frac.toRat_sub, Frac.toRat_div, Frac.toRat_natCast,
          Frac.toRat_lit]
        push_cast
        ring
      rw [hT]
      have hb : ((x.fclamp 0 w) / w * ((255:ℕ) : Frac)).toU16 ≤ 255 := by
        apply Frac.toU16_le
        simp only [Frac.toRat_mul, Frac.toRat_div, Frac.toRat_natCast, Frac.toRat_lit]
        push_cast
        nlinarith [htle, ht0]
      simp only [clampN]
      omega
    · have hred : (handle_gradient_click cur (GradientType.Slider "g") x 0 w 1).value_by_name "g"
          = clampN (clampN (((x.fclamp 0 w - 0) / (w - 0) * ((255:ℕ) : Frac)).toU16) 0 255) 0 255 := rfl
      rw [hred, show (channelMax "g") = 255 from rfl]
      have hT : ((x.fclamp 0 w - 0) / (w - 0) * ((255:ℕ) : Frac)).toU16
          = ((x.fclamp 0 w) / w * ((255:ℕ) : Frac)).toU16 := by
        apply Frac.toU16_congr
        simp only [Frac.toRat_mul, Frac.toRat_sub, Frac.toRat_div, Frac.toRat_natCast,
          Frac.toRat_lit]
        push_cast
        ring
      rw [hT]
      have hb : ((x.fclamp 0 w) / w * ((255:ℕ) : Frac)).toU16 ≤ 255 := by
        apply Frac.toU16_le
        simp only [Frac.toRat_mul, Frac.toRat_div, Frac.toRat_natCast, Frac.toRat_lit]
        push_cast
        nlinarith [htle, ht0]
      simp only [clampN]
      omega
    · have hred : (handle_gradient_click cur (GradientType.Slider "b") x 0 w 1).value_by_name "b"
          = clampN (clampN (((x.fclamp 0 w - 0) / (w - 0) * ((255:ℕ) : Frac)).toU16) 0 255) 0 255 := rfl
      rw [hred, show (channelMax "b") = 255 from rfl]
      have hT : ((x.fclamp 0 w - 0) / (w - 0) * ((255:ℕ) : Frac)).toU16
          = ((x.fclamp 0 w) / w * ((255:ℕ) : Frac)).toU16 := by
        apply Frac.toU16_congr
        simp only [Frac.toRat_mul, Frac.toRat_sub, Frac.toRat_div, Frac.toRat_natCast,
          Frac.toRat_lit]
        push_cast
        ring
      rw [hT]
      have hb : ((x.fclamp 0 w) / w * ((255:ℕ) : Frac)).toU16 ≤ 255 := by
        apply Frac.toU16_le
        simp only [Frac.toRat_mul, Frac.toRat_div, Frac.toRat_natCast, Frac.toRat_lit]
        push_cast
        nlinarith [htle, ht0]
      simp only [clampN]
      omega
    · have hred : (handle_gradient_click cur (GradientType.Slider "h") x 0 w 1).value_by_name "h"
          = clampN (clampN (((x.fclamp 0 w - 0) / (w - 0) * ((360:ℕ) : Frac)).toU16) 0 360) 0 360 := rfl
      rw [hred, show (channelMax "h") = 360 from rfl]
      have hT : ((x.fclamp 0 w - 0) / (w - 0) * ((360:ℕ) : Frac)).toU16
          = ((x.fclamp 0 w) / w * ((360:ℕ) : Frac)).toU16 := by
        apply Frac.toU16_congr
        simp only [Frac.toRat_mul, Frac.toRat_sub, Frac.toRat_div, Frac.toRat_natCast,
          Frac.toRat_lit]
        push_cast
        ring
      rw [hT]
      have hb : ((x.fclamp 0 w) / w * ((360:ℕ) : Frac)).toU16 ≤ 360 := by
        apply Frac.toU16_le
        simp only [Frac.toRat_mul, Frac.toRat_div, Frac.toRat_natCast, Frac.toRat_lit]
        push_cast
        nlinarith [htle, ht0]
      simp only [clampN]
      omega
    · have hred : (handle_gradient_click cur (GradientType.Slider "s") x 0 w 1).value_by_name "s"
          = clampN (clampN (((x.fclamp 0 w - 0) / (w - 0) * ((100:ℕ) : Frac)).toU16) 0 100) 0 100 := rfl
      rw [hred, show (channelMax "s") = 100 from rfl]
      have hT : ((x.fclamp 0 w - 0) / (w - 0) * ((100:ℕ) : Frac)).toU16
          = ((x.fclamp 0 w) / w * ((100:ℕ) : Frac)).toU16 := by
        apply Frac.toU16_congr
        simp only [Frac.toRat_mul, Frac.toRat_sub, Frac.toRat_div, Frac.toRat_natCast,
          Frac.toRat_lit]
        push_cast
        ring
      rw [hT]
      have hb : ((x.fclamp 0 w) / w * ((100:ℕ) : Frac)).toU16 ≤ 100 := by
        apply Frac.toU16_le
        simp only [Frac.toRat_mul, Frac.toRat_div, Frac.toRat_natCast, Frac.toRat_lit]
        push_cast
        nlinarith [htle, ht0]
      simp only [clampN]
      omega
    · have hred : (handle_gradient_click cur (GradientType.Slider "v") x 0 w 1).value_by_name "v"
          = clampN (clampN (((x.fclamp 0 w - 0) / (w - 0) * ((100:ℕ) : Frac)).toU16) 0 100) 0 100 := rfl
      rw [hred, show (channelMax "v") = 100 from rfl]
      have hT : ((x.fclamp 0 w - 0) / (w - 0) * ((100:ℕ) : Frac)).toU16
          = ((x.fclamp 0 w) / w * ((100:ℕ) : Frac)).toU16 := by
        apply Frac.toU16_congr
        simp only [Frac.toRat_mul, Frac.toRat_sub, Frac.toRat_div, Frac.toRat_natCast,
          Frac.toRat_lit]
        push_cast
        ring
      rw [hT]
      have hb : ((x.fclamp 0 w) / w * ((100:ℕ) : Frac)).toU16 ≤ 100 := by
        apply Frac.toU16_le
        simp only [Frac.toRat_mul, Frac.toRat_div, Frac.toRat_natCast, Frac.toRat_lit]
        push_cast
        nlinarith [htle, ht0]
      simp only [clampN]
      omega
  · have hred : (handle_gradient_click cur (GradientType.Slider "r") x 0 w 1).g
        = clampN cur.g 0 255 := rfl
    rw [hred]
    exact clampN_eq_self _ _ hg255
  · have hred : (handle_gradient_click cur (GradientType.Slider "r") x 0 w 1).b
        = clampN cur.b 0 255 := rfl
    rw [hred]
    exact clampN_eq_self _ _ hb255
  · have hred : (handle_gradient_click cur (GradientType.Slider "g") x 0 w 1).r
        = clampN cur.r 0 255 := rfl
    rw [hred]
    exact clampN_eq_self _ _ hr255
  · have hred : (handle_gradient_click cur (GradientType.Slider "g") x 0 w 1).b
        = clampN cur.b 0 255 := rfl
    rw [hred]
    exact clampN_eq_self _ _ hb255
  · have hred : (handle_gradient_click cur (GradientType.Slider "b") x 0 w 1).r
        = clampN cur.r 0 255 := rfl
    rw [hred]
    exact clampN_eq_self _ _ hr255
  · have hred : (handle_gradient_click cur (GradientType.Slider "b") x 0 w 1).g
        = clampN cur.g 0 255 := rfl
    rw [hred]
    exact clampN_eq_self _ _ hg255
  · have hred : (handle_gradient_click cur (GradientType.Slider "h") x 0 w 1).s
        = clampN cur.s 0 100 := rfl
    rw [hred]
    exact clampN_eq_self _ _ hs100
  · have hred : (handle_gradient_click cur (GradientType.Slider "h") x 0 w 1).v
        = clampN cur.v 0 100 := rfl
    rw [hred]
    exact clampN_eq_self _ _ hv100
  · have hred : (handle_gradient_click cur (GradientType.Slider "s") x 0 w 1).h
        = clampN cur.h 0 360 := rfl
    rw [hred]
    exact clampN_eq_self _ _ hh360
  · have hred : (handle_gradient_click cur (GradientType.Slider "s") x 0 w 1).v
        = clampN cur.v 0 100 := rfl
    rw [hred]
    exact clampN_eq_self _ _ hv100
  · have hred : (handle_gradient_click cur (GradientType.Slider "v") x 0 w 1).h
        = clampN cur.h 0 360 := rfl
    rw [hred]
    exact clampN_eq_self _ _ hh360
  · have hred : (handle_gradient_click cur (GradientType.Slider "v") x 0 w 1).s
        = clampN cur.s 0 100 := rfl
    rw [hred]
    exact clampN_eq_self _ _ hs100

set_option maxHeartbeats 1600000 in
/-- Witness for C7 at `cur = from_rgb 10 20 30`, `x = 1`, `w = 2`. -/
theorem C7_slider_drag_amended_witness :
    ((handle_gradient_click (Color.from_rgb 10 20 30) (GradientType.Slider "r") 1 0 2 1).value_by_name "r"
      = (((1:Frac).fclamp 0 2) / 2 * ((channelMax "r" : ℕ) : Frac)).toU16) ∧
    (handle_gradient_click (Color.from_rgb 10 20 30) (GradientType.Slider "r") 1 0 2 1).g
      = (Color.from_rgb 10 20 30).g :=
  ⟨(C7_slider_drag_amended (Color.from_rgb 10 20 30) (by decide) 1 2
      (by simp only [Frac.toRat_lit]; norm_num)).1 "r" (by decide),
   (C7_slider_drag_amended (Color.from_rgb 10 20 30) (by decide) 1 2
      (by simp only [Frac.toRat_lit]; norm_num)).2.1⟩

theorem Frac.toU16_of_eq_nat (a : Frac) (k : ℕ) (hk : k ≤ 65535) (h : a.toRat = (k:ℚ)) :
    a.toU16 = k := by
  rw [Frac.toU16_eq, h, Nat.floor_natCast, min_eq_right hk]

set_option maxHeartbeats 1600000 in
/-- C8: a drag on the main plane holds the hue from the current color and
sets `s = clamp(x,0,w)/w * 100`, `v = (1 − clamp(y,0,h)/h) * 100`; at the
exact top-right corner this gives `s = 100, v = 100`, and at the
bottom-left corner `s = 0, v = 0`. -/
theorem C8_plane_drag (cur : Color) (hh : cur.h ≤ 360) (w h : Frac)
    (hw : 0 < w.toRat) (hhp : 0 < h.toRat) :
    (∀ x y : Frac, (handle_gradient_click cur GradientType.Gradient x y w h).h = cur.h) ∧
    (handle_gradient_click cur GradientType.Gradient w 0 w h).s = 100 ∧
    (handle_gradient_click cur GradientType.Gradient w 0 w h).v = 100 ∧
    (handle_gradient_click cur GradientType.Gradient 0 h w h).s = 0 ∧
    (handle_gradient_click cur GradientType.Gradient 0 h w h).v = 0 := by
  have h0 : ((0:Frac)).toRat = 0 := by
    simp only [Frac.toRat_lit]
    push_cast
    rfl
  have hcw : (w.fclamp 0 w).toRat = w.toRat := by
    rw [Frac.toRat_fclamp _ _ _ (by rw [h0]; exact le_of_lt hw), h0,
      max_eq_right (le_of_lt hw), min_self]
  have hch : (h.fclamp 0 h).toRat = h.toRat := by
    rw [Frac.toRat_fclamp _ _ _ (by rw [h0]; exact le_of_lt hhp), h0,
      max_eq_right (le_of_lt hhp), min_self]
  have hc0w : (((0:Frac)).fclamp 0 w).toRat = 0 := by
    rw [Frac.toRat_fclamp _ _ _ (by rw [h0]; exact le_of_lt hw), h0, max_self,
      min_eq_right (le_of_lt hw)]
  have hc0h : (((0:Frac)).fclamp 0 h).toRat = 0 := by
    rw [Frac.toRat_fclamp _ _ _ (by rw [h0]; exact le_of_lt hhp), h0, max_self,
      min_eq_right (le_of_lt hhp)]
  refine ⟨?_, ?_, ?_, ?_, ?_⟩
  · intro x y
    have hred : (handle_gradient_click cur GradientType.Gradient x y w h).h
        = clampN cur.h 0 360 := rfl
    rw [hred]
    exact clampN_eq_self _ _ hh
  · have hred : (handle_gradient_click cur GradientType.Gradient w 0 w h).s
        = clampN (((w.fclamp 0 w - 0) / w * 100).toU16) 0 100 := rfl
    rw [hred]
    have hval : ((w.fclamp 0 w - 0) / w * 100).toU16 = 100 := by
      apply Frac.toU16_of_eq_nat _ _ (by norm_num)
      simp only [Frac.toRat_mul, Frac.toRat_sub, Frac.toRat_div, Frac.toRat_lit]
      rw [hcw]
      push_cast
      field_simp
    rw [hval]
    exact clampN_eq_self _ _ (le_refl 100)
  · have hred : (handle_gradient_click cur GradientType.Gradient w 0 w h).v
        = clampN (((1 - (((0:Frac)).fclamp 0 h - 0) / h) * 100).toU16) 0 100 := rfl
    rw [hred]
    have hval : ((1 - (((0:Frac)).fclamp 0 h - 0) / h) * 100).toU16 = 100 := by
      apply Frac.toU16_of_eq_nat _ _ (by norm_num)
      simp only [Frac.toRat_mul, Frac.toRat_sub, Frac.toRat_div, Frac.toRat_lit]
      rw [hc0h]
      push_cast
      field_simp
    rw [hval]
    exact clampN_eq_self _ _ (le_refl 100)
  · have hred : (handle_gradient_click cur GradientType.Gradient 0 h w h).s
        = clampN (((((0:Frac)).fclamp 0 w - 0) / w * 100).toU16) 0 100 := rfl
    rw [hred]
    have hval : ((((0:Frac)).fclamp 0 w - 0) / w * 100).toU16 = 0 := by
      apply Frac.toU16_of_eq_nat _ _ (by norm_num)
      simp only [Frac.toRat_mul, Frac.toRat_sub, Frac.toRat_div, Frac.toRat_lit]
      rw [hc0w]
      push_cast
      simp
    rw [hval]
    exact clampN_eq_self _ _ (by norm_num)
  · have hred : (handle_gradient_click cur GradientType.Gradient 0 h w h).v
        = clampN (((1 - (h.fclamp 0 h - 0) / h) * 100).toU16) 0 100 := rfl
    rw [hred]
    have hval : ((1 - (h.fclamp 0 h - 0) / h) * 100).toU16 = 0 := by
      apply Frac.toU16_of_eq_nat _ _ (by norm_num)
      simp only [Frac.toRat_mul, Frac.toRat_sub, Frac.toRat_div, Frac.toRat_lit]
      rw [hch]
      push_cast
      field_simp
    rw [hval]
    exact clampN_eq_self _ _ (by norm_num)

set_option maxHeartbeats 1600000 in
/-- Witness for C8 at `cur = from_hsv 200 50 50`, `w = 3`, `h = 2`. -/
theorem C8_plane_drag_witness :
    ((handle_gradient_click (Color.from_hsv 200 50 50) GradientType.Gradient 1 1 3 2).h
      = (Color.from_hsv 200 50 50).h) ∧
    (handle_gradient_click (Color.from_hsv 200 50 50) GradientType.Gradient 3 0 3 2).s = 100 ∧
    (handle_gradient_click (Color.from_hsv 200 50 50) GradientType.Gradient 0 2 3 2).v = 0 := by
  have H := C8_plane_drag (Color.from_hsv 200 50 50) (by decide) 3 2
    (by simp only [Frac.toRat_lit]; norm_num) (by simp only [Frac.toRat_lit]; norm_num)
  exact ⟨H.1 1 1, H.2.1, H.2.2.2.2⟩

set_option maxHeartbeats 1600000 in
/-- C9: a scroll tick on a channel slider adjusts the addressed channel
by exactly ±1 (sign from the scroll direction), clamped to the channel's
valid range rather than wrapped: at `h = 359` an upward tick gives
`h = 360`, and a further upward tick stays at `360`; scroll on the main
plane leaves the color unchanged. -/
theorem C9_scroll_ticks (cur : Color) (hcur : cur.InRange) (dy : Frac)
    (hdy : dy.toRat ≠ 0) :
    (∀ c ∈ sliderLabels,
      (handle_gradient_scroll cur (GradientType.Slider c) dy true).value_by_name c =
        if 0 < dy.toRat then min (channelMax c) (cur.value_by_name c + 1)
        else cur.value_by_name c - 1) ∧
    (∀ dy' : Frac, ∀ hov : Bool,
      handle_gradient_scroll cur GradientType.Gradient dy' hov = cur) ∧
    (handle_gradient_scroll (Color.from_hsv 359 50 50) (GradientType.Slider "h") 1 true).h
      = 360 ∧
    (handle_gradient_scroll (Color.from_hsv 360 50 50) (GradientType.Slider "h") 1 true).h
      = 360 := by
  have h0 : ((0:Frac)).toRat = 0 := by
    simp only [Frac.toRat_lit]
    push_cast
    rfl
  have hbeq : dy.beq 0 = false := by
    rw [Bool.eq_false_iff, Ne, Frac.beq_iff, h0]
    exact hdy
  have hcond : (dy.beq 0 || !true) = false := by
    rw [hbeq]
    rfl
  have hstep : ∀ c' : String, handle_gradient_scroll cur (GradientType.Slider c') dy true
      = change_color_value cur c'
          (Frac.ofInt ((cur.value_by_name c' : ℤ) + (if (0:Frac).lt dy then 1 else -1)))
          false := by
    intro c'
    rw [handle_gradient_scroll, hcond]
    rfl
  obtain ⟨hr255, hg255, hb255, hh360, hs100, hv100⟩ := hcur
  refine ⟨?_, ?_, by decide, by decide⟩
  · intro c hc
    fin_cases hc
    · rw [hstep "r", show cur.value_by_name "r" = cur.r from rfl,
        show channelMax "r" = 255 from rfl]
      by_cases hpos : (0:Frac).lt dy = true
      · have hpos' : 0 < dy.toRat := by
          have := (Frac.lt_iff _ _).mp hpos
          rw [h0] at this
          exact this
      
        rw [if_pos hpos, if_pos hpos']
        have hred : (change_color_value cur "r" (Frac.ofInt ((cur.r : ℤ) + 1)) false).value_by_name "r"
            = clampN (clampN ((Frac.ofInt ((cur.r : ℤ) + 1)).toU16) 0 255) 0 255 := rfl
        rw [hred, Frac.toU16_ofInt]
        have ht : ((cur.r : ℤ) + 1).toNat = cur.r + 1 := by omega
        rw [ht]
        simp only [clampN]
        omega
      · have hpos' : ¬ (0 < dy.toRat) := by
          intro hcon
          exact hpos ((Frac.lt_iff _ _).mpr (by rw [h0]; exact hcon))
        rw [if_neg hpos, if_neg hpos']
        have hred : (change_color_value cur "r" (Frac.ofInt ((cur.r : ℤ) + -1)) false).value_by_name "r"
            = clampN (clampN ((Frac.ofInt ((cur.r : ℤ) + -1)).toU16) 0 255) 0 255 := rfl
        rw [hred, Frac.toU16_ofInt]
        have ht : ((cur.r : ℤ) + -1).toNat = cur.r - 1 := by omega
        rw [ht]
        simp only [clampN]
        omega
    · rw [hstep "g", show cur.value_by_name "g" = cur.g from rfl,
        show channelMax "g" = 255 from rfl]
      by_cases hpos : (0:Frac).lt dy = true
      · have hpos' : 0 < dy.toRat := by
          have := (Frac.lt_iff _ _).mp hpos
          rw [h0] at this
          exact this
      
        rw [if_pos hpos, if_pos hpos']
        have hred : (change_color_value cur "g" (Frac.ofInt ((cur.g : ℤ) + 1)) false).value_by_name "g"
            = clampN (clampN ((Frac.ofInt ((cur.g : ℤ) + 1)).toU16) 0 255) 0 255 := rfl
        rw [hred, Frac.toU16_ofInt]
        have ht : ((cur.g : ℤ) + 1).toNat = cur.g + 1 := by omega
        rw [ht]
        simp only [clampN]
        omega
      · have hpos' : ¬ (0 < dy.toRat) := by
          intro hcon
          exact hpos ((Frac.lt_iff _ _).mpr (by rw [h0]; exact hcon))
        rw [if_neg hpos, if_neg hpos']
        have hred : (change_color_value cur "g" (Frac.ofInt ((cur.g : ℤ) + -1)) false).value_by_name "g"
            = clampN (clampN ((Frac.ofInt ((cur.g : ℤ) + -1)).toU16) 0 255) 0 255 := rfl
        rw [hred, Frac.toU16_ofInt]
        have ht : ((cur.g : ℤ) + -1).toNat = cur.g - 1 := by omega
        rw [ht]
        simp only [clampN]
        omega
    · rw [hstep "b", show cur.value_by_name "b" = cur.b from rfl,
        show channelMax "b" = 255 from rfl]
      by_cases hpos : (0:Frac).lt dy = true
      · have hpos' : 0 < dy.toRat := by
          have := (Frac.lt_iff _ _).mp hpos
          rw [h0] at this
          exact this
      
        rw [if_pos hpos, if_pos hpos']
        have hred : (change_color_value cur "b" (Frac.ofInt ((cur.b : ℤ) + 1)) false).value_by_name "b"
            = clampN (clampN ((Frac.ofInt ((cur.b : ℤ) + 1)).toU16) 0 255) 0 255 := rfl
        rw [hred, Frac.toU16_ofInt]
        have ht : ((cur.b : ℤ) + 1).toNat = cur.b + 1 := by omega
        rw [ht]
        simp only [clampN]
        omega
      · have hpos' : ¬ (0 < dy.toRat) := by
          intro hcon
          exact hpos ((Frac.lt_iff _ _).mpr (by rw [h0]; exact hcon))
        rw [if_neg hpos, if_neg hpos']
        have hred : (change_color_value cur "b" (Frac.ofInt ((cur.b : ℤ) + -1)) false).value_by_name "b"
            = clampN (clampN ((Frac.ofInt ((cur.b : ℤ) + -1)).toU16) 0 255) 0 255 := rfl
        rw [hred, Frac.toU16_ofInt]
        have ht : ((cur.b : ℤ) + -1).toNat = cur.b - 1 := by omega
        rw [ht]
        simp only [clampN]
        omega
    · rw [hstep "h", show cur.value_by_name "h" = cur.h from rfl,
        show channelMax "h" = 360 from rfl]
      by_cases hpos : (0:Frac).lt dy = true
      · have hpos' : 0 < dy.toRat := by
          have := (Frac.lt_iff _ _).mp hpos
          rw [h0] at this
          exact this
      
        rw [if_pos hpos, if_pos hpos']
        have hred : (change_color_value cur "h" (Frac.ofInt ((cur.h : ℤ) + 1)) false).value_by_name "h"
            = clampN (clampN ((Frac.ofInt ((cur.h : ℤ) + 1)).toU16) 0 360) 0 360 := rfl
        rw [hred, Frac.toU16_ofInt]
        have ht : ((cur.h : ℤ) + 1).toNat = cur.h + 1 := by omega
        rw [ht]
        simp only [clampN]
        omega
      · have hpos' : ¬ (0 < dy.toRat) := by
          intro hcon
          exact hpos ((Frac.lt_iff _ _).mpr (by rw [h0]; exact hcon))
        rw [if_neg hpos, if_neg hpos']
        have hred : (change_color_value cur "h" (Frac.ofInt ((cur.h : ℤ) + -1)) false).value_by_name "h"
            = clampN (clampN ((Frac.ofInt ((cur.h : ℤ) + -1)).toU16) 0 360) 0 360 := rfl
        rw [hred, Frac.toU16_ofInt]
        have ht : ((cur.h : ℤ) + -1).toNat = cur.h - 1 := by omega
        rw [ht]
        simp only [clampN]
        omega
    · rw [hstep "s", show cur.value_by_name "s" = cur.s from rfl,
        show channelMax "s" = 100 from rfl]
      by_cases hpos : (0:Frac).lt dy = true
      · have hpos' : 0 < dy.toRat := by
          have := (Frac.lt_iff _ _).mp hpos
          rw [h0] at this
          exact this
      
        rw [if_pos hpos, if_pos hpos']
        have hred : (change_color_value cur "s" (Frac.ofInt ((cur.s : ℤ) + 1)) false).value_by_name "s"
            = clampN (clampN ((Frac.ofInt ((cur.s : ℤ) + 1)).toU16) 0 100) 0 100 := rfl
        rw [hred, Frac.toU16_ofInt]
        have ht : ((cur.s : ℤ) + 1).toNat = cur.s + 1 := by omega
        rw [ht]
        simp only [clampN]
        omega
      · have hpos' : ¬ (0 < dy.toRat) := by
          intro hcon
          exact hpos ((Frac.lt_iff _ _).mpr (by rw [h0]; exact hcon))
        rw [if_neg hpos, if_neg hpos']
        have hred : (change_color_value cur "s" (Frac.ofInt ((cur.s : ℤ) + -1)) false).value_by_name "s"
            = clampN (clampN ((Frac.ofInt ((cur.s : ℤ) + -1)).toU16) 0 100) 0 100 := rfl
        rw [hred, Frac.toU16_ofInt]
        have ht : ((cur.s : ℤ) + -1).toNat = cur.s - 1 := by omega
        rw [ht]
        simp only [clampN]
        omega
    · rw [hstep "v", show cur.value_by_name "v" = cur.v from rfl,
        show channelMax "v" = 100 from rfl]
      by_cases hpos : (0:Frac).lt dy = true
      · have hpos' : 0 < dy.toRat := by
          have := (Frac.lt_iff _ _).mp hpos
          rw [h0] at this
          exact this
      
        rw [if_pos hpos, if_pos hpos']
        have hred : (change_color_value cur "v" (Frac.ofInt ((cur.v : ℤ) + 1)) false).value_by_name "v"
            = clampN (clampN ((Frac.ofInt ((cur.v : ℤ) + 1)).toU16) 0 100) 0 100 := rfl
        rw [hred, Frac.toU16_ofInt]
        have ht : ((cur.v : ℤ) + 1).toNat = cur.v + 1 := by omega
        rw [ht]
        simp only [clampN]
        omega
      · have hpos' : ¬ (0 < dy.toRat) := by
          intro hcon
          exact hpos ((Frac.lt_iff _ _).mpr (by rw [h0]; exact hcon))
        rw [if_neg hpos, if_neg hpos']
        have hred : (change_color_value cur "v" (Frac.ofInt ((cur.v : ℤ) + -1)) false).value_by_name "v"
            = clampN (clampN ((Frac.ofInt ((cur.v : ℤ) + -1)).toU16) 0 100) 0 100 := rfl
        rw [hred, Frac.toU16_ofInt]
        have ht : ((cur.v : ℤ) + -1).toNat = cur.v - 1 := by omega
        rw [ht]
        simp only [clampN]
        omega
  · intro dy' hov
    rw [handle_gradient_scroll]
    split_ifs with hif
    · rfl
    · rfl

set_option maxHeartbeats 1600000 in
/-- Witness for C9 at `cur = from_rgb 10 20 30`, `dy = 1`, channel `r`. -/
theorem C9_scroll_ticks_witness :
    ((handle_gradient_scroll (Color.from_rgb 10 20 30) (GradientType.Slider "r") 1 true).value_by_name "r" =
      if 0 < ((1:Frac)).toRat then min (channelMax "r") ((Color.from_rgb 10 20 30).value_by_name "r" + 1)
      else (Color.from_rgb 10 20 30).value_by_name "r" - 1) ∧
    (handle_gradient_scroll (Color.from_rgb 10 20 30) GradientType.Gradient 1 true
      = Color.from_rgb 10 20 30) := by
  have H := C9_scroll_ticks (Color.from_rgb 10 20 30) (by decide) 1
    (by simp only [Frac.toRat_lit]; push_cast; norm_num)
  exact ⟨H.1 "r" (by decide), H.2.1 1 true⟩

set_option maxHeartbeats 1600000 in
/-- C10 counterexample: an invalid hex edit is NOT discarded — the
`TextEdit` has already written it into the hex field and the failure
branch leaves it there, so after entering `"bad"` into a state whose hex
text showed the current color, the color is unchanged but the hex field
holds `"bad"`, which is not the last valid color's hex string. -/
theorem C10_counterexample :
    (on_hex_text_changed
        ⟨Color.from_rgb 1 2 3, (Color.from_rgb 1 2 3).hex, fun _ => ""⟩ "bad").color
      = Color.from_rgb 1 2 3 ∧
    (on_hex_text_changed
        ⟨Color.from_rgb 1 2 3, (Color.from_rgb 1 2 3).hex, fun _ => ""⟩ "bad").hexText
      = "bad" ∧
    "bad" ≠ (Color.from_rgb 1 2 3).hex := by decide

set_option maxHeartbeats 1600000 in
/-- C10 amended: a successfully parsed channel value is applied
unscaled, truncated and clamped to the channel's range; an unparsable
channel text leaves the color unchanged and resynchronizes every
displayed text (all channel buffers and the hex field) from the current
color, discarding the edit.  An invalid hex string leaves the color and
the channel texts unchanged and propagates no fault, but the invalid
text itself remains in the hex field — it is not resynchronized until
the next successful color change. -/
theorem C10_text_entry_amended (a : AppState) :
    (∀ l ∈ sliderLabels, ∀ txt : String, ∀ t : Frac,
      ((on_slider_text_changed a l txt (some t)).color.value_by_name l =
        min (channelMax l) t.toU16)) ∧
    (∀ l ∈ sliderLabels, ∀ txt : String,
      (on_slider_text_changed a l txt none).color = a.color ∧
      (∀ l' ∈ sliderLabels, (on_slider_text_changed a l txt none).sliderTexts l' =
        toString (a.color.value_by_name l')) ∧
      (on_slider_text_changed a l txt none).hexText = a.color.hex) ∧
    (∀ s : String, Color.from_hex s = none →
      (on_hex_text_changed a s).color = a.color ∧
      (on_hex_text_changed a s).hexText = s ∧
      (on_hex_text_changed a s).sliderTexts = a.sliderTexts) := by
  refine ⟨?_, ?_, ?_⟩
  · intro l hl txt t
    fin_cases hl
    · rw [show channelMax "r" = 255 from rfl]
      have hred : (on_slider_text_changed a "r" txt (some t)).color.value_by_name "r"
          = clampN (clampN t.toU16 0 255) 0 255 := rfl
      rw [hred]
      simp only [clampN]
      omega
    · rw [show channelMax "g" = 255 from rfl]
      have hred : (on_slider_text_changed a "g" txt (some t)).color.value_by_name "g"
          = clampN (clampN t.toU16 0 255) 0 255 := rfl
      rw [hred]
      simp only [clampN]
      omega
    · rw [show channelMax "b" = 255 from rfl]
      have hred : (on_slider_text_changed a "b" txt (some t)).color.value_by_name "b"
          = clampN (clampN t.toU16 0 255) 0 255 := rfl
      rw [hred]
      simp only [clampN]
      omega
    · rw [show channelMax "h" = 360 from rfl]
      have hred : (on_slider_text_changed a "h" txt (some t)).color.value_by_name "h"
          = clampN (clampN t.toU16 0 360) 0 360 := rfl
      rw [hred]
      simp only [clampN]
      omega
    · rw [show channelMax "s" = 100 from rfl]
      have hred : (on_slider_text_changed a "s" txt (some t)).color.value_by_name "s"
          = clampN (clampN t.toU16 0 100) 0 100 := rfl
      rw [hred]
      simp only [clampN]
      omega
    · rw [show channelMax "v" = 100 from rfl]
      have hred : (on_slider_text_changed a "v" txt (some t)).color.value_by_name "v"
          = clampN (clampN t.toU16 0 100) 0 100 := rfl
      rw [hred]
      simp only [clampN]
      omega
  · intro l hl txt
    refine ⟨?_, ?_, ?_⟩
    · rw [on_slider_text_changed, if_pos hl]
      rfl
    · intro l' hl'
      rw [on_slider_text_changed, if_pos hl]
      show (set_color
          { a with sliderTexts := fun l2 => if l2 = l then txt else a.sliderTexts l2 }
          a.color).sliderTexts l' = _
      rw [set_color]
      exact if_pos hl'
    · rw [on_slider_text_changed, if_pos hl]
      rfl
  · intro s hs
    have hred : on_hex_text_changed a s = { a with hexText := s } := by
      rw [on_hex_text_changed, hs]
    rw [hred]
    exact ⟨rfl, rfl, rfl⟩

set_option maxHeartbeats 1600000 in
/-- Witness for C10 at a concrete app state: channel `h` with text
`"400.5"` parsed to `400.5` (clamps to 360), a parse failure on `h`, and
the invalid hex `"bad"`. -/
theorem C10_text_entry_amended_witness :
    ((on_slider_text_changed ⟨Color.from_rgb 1 2 3, "x", fun _ => ""⟩ "h" "400.5"
        (some (Frac.ofInt 801 / 2))).color.value_by_name "h" =
      min (channelMax "h") ((Frac.ofInt 801 / 2)).toU16) ∧
    (on_slider_text_changed ⟨Color.from_rgb 1 2 3, "x", fun _ => ""⟩ "h" "abc"
        none).color = Color.from_rgb 1 2 3 ∧
    ((on_hex_text_changed ⟨Color.from_rgb 1 2 3, "x", fun _ => ""⟩ "bad").color
        = Color.from_rgb 1 2 3 ∧
     (on_hex_text_changed ⟨Color.from_rgb 1 2 3, "x", fun _ => ""⟩ "bad").hexText
        = "bad") := by
  have H := C10_text_entry_amended ⟨Color.from_rgb 1 2 3, "x", fun _ => ""⟩
  refine ⟨H.1 "h" (by decide) "400.5" _, (H.2.1 "h" (by decide) "abc").1, ?_⟩
  have h3 := H.2.2 "bad" (by decide)
  exact ⟨h3.1, h3.2.1⟩
